import Mathlib

/-!
Verification of the customer-analytics and recommendation subsystem
(RFM scorer, CLV predictor, churn-risk scorer, recommendation engine,
two-tier cache) as a shallow embedding of the JavaScript services
(`rfmService`, `clvService`, `churnService`, `recommendationService`,
`cacheService`).

Conventions of the embedding:
* JavaScript numbers holding money, scores and averages are modelled as `ℚ`;
  counts as `ℕ`; millisecond timestamps as `ℤ`.
* `Math.floor` of an integer-millisecond quotient is `Int.fdiv`.
* `Number.toFixed(2)` is modelled as round-half-up to two decimals
  (`round2`); all values it is applied to here are nonnegative, where the
  two agree.
* A database query ("all completed transactions for customer X ordered by
  time") is modelled by passing the fetched list to the compute function,
  in the query's order, or by filtering an explicit table list.
* `async` functions that can throw are `Except String`.
-/

namespace Techmart

/-- Transaction status enumeration from the `Transaction` model. -/
inductive TxnStatus where
  | pending | completed | failed | refunded
deriving DecidableEq, Repr

/-- Ledger entry: the fields of the `Transaction` model used by the scorers. -/
structure Txn where
  customer_id : Nat
  product_id : Nat
  status : TxnStatus
  timestamp : Int
  total_amount : Rat
deriving DecidableEq, Repr

/-- The fields of the `Customer` model used by the scorers. -/
structure Customer where
  id : Nat
  loyalty_tier : Option String
deriving DecidableEq, Repr

/-- The fields of the `Product` model used by the recommendation engine. -/
structure Product where
  id : Nat
  stock_quantity : Nat
deriving DecidableEq, Repr

/-- Milliseconds in one day (1000*60*60*24). -/
def msPerDay : Int := 86400000

/-- Floor (Math.floor) of a difference of millisecond timestamps, in days:
models the repeated JS idiom Math.floor((a - b) / (1000*60*60*24)). -/
def daysBetween (a b : Int) : Int := Int.fdiv (a - b) msPerDay

/-- The JS Number.toFixed(2) result parsed back to a number: round half up to 2 decimals. -/
def round2 (q : Rat) : Rat := ((⌊q * 100 + 1/2⌋ : Int) : Rat) / 100

/-! ### RFM scorer (rfmService) -/

/-- Recency score from days since the last purchase (calculateRecencyScore). -/
def calculateRecencyScore (days : Int) : Nat :=
  if days ≤ 30 then 5
  else if days ≤ 60 then 4
  else if days ≤ 90 then 3
  else if days ≤ 180 then 2
  else 1

/-- Frequency score from the number of purchases (calculateFrequencyScore). -/
def calculateFrequencyScore (count : Nat) : Nat :=
  if count ≥ 20 then 5
  else if count ≥ 10 then 4
  else if count ≥ 5 then 3
  else if count ≥ 2 then 2
  else 1

/-- Monetary score from the total spend (calculateMonetaryScore). -/
def calculateMonetaryScore (amount : Rat) : Nat :=
  if amount ≥ 10000 then 5
  else if amount ≥ 5000 then 4
  else if amount ≥ 2000 then 3
  else if amount ≥ 500 then 2
  else 1

/-- Customer segment from the RFM scores, first matching rule wins
(determineSegment). -/
def determineSegment (rfmScore r f m : Nat) : String :=
  if rfmScore ≥ 13 ∧ r ≥ 4 ∧ f ≥ 4 ∧ m ≥ 4 then "Champions"
  else if rfmScore ≥ 10 ∧ f ≥ 3 ∧ m ≥ 3 then "Loyal"
  else if rfmScore ≥ 8 ∧ r ≤ 2 ∧ (f ≥ 3 ∨ m ≥ 3) then "At Risk"
  else if rfmScore ≤ 7 ∨ r = 1 then "Lost"
  else "Potential"

/-- Result record of calculateCustomerRFM. -/
structure RFMOut where
  customer_id : Nat
  recency_days : Int
  recency_score : Nat
  frequency_count : Nat
  frequency_score : Nat
  monetary_value : Rat
  monetary_score : Nat
  rfm_score : Nat
  rfm_segment : String
deriving DecidableEq, Repr

/-- The JS reduce summing parseFloat(t.total_amount) over a transaction list. -/
def monetaryOf (txns : List Txn) : Rat :=
  txns.foldl (fun sum t => sum + t.total_amount) 0

/-- The calculateCustomerRFM scorer: `customer` is the Customer.findByPk result,
`txns` the customer's completed transactions ordered newest first
(the findAll with status completed, timestamp DESC), `now` the clock. -/
def calculateCustomerRFM (customer : Option Customer) (txns : List Txn)
    (now : Int) : Except String RFMOut :=
  match customer with
  | none => .error "Customer not found"
  | some c =>
    match txns with
    | [] =>
      .ok { customer_id := c.id, recency_days := 9999, recency_score := 1,
            frequency_count := 0, frequency_score := 1, monetary_value := 0,
            monetary_score := 1, rfm_score := 3, rfm_segment := "Lost" }
    | t0 :: _ =>
      let recencyDays := daysBetween now t0.timestamp
      let frequencyCount := txns.length
      let monetaryValue := monetaryOf txns
      let recencyScore := calculateRecencyScore recencyDays
      let frequencyScore := calculateFrequencyScore frequencyCount
      let monetaryScore := calculateMonetaryScore monetaryValue
      let rfmScore := recencyScore + frequencyScore + monetaryScore
      let rfmSegment := determineSegment rfmScore recencyScore frequencyScore monetaryScore
      .ok { customer_id := c.id, recency_days := recencyDays,
            recency_score := recencyScore, frequency_count := frequencyCount,
            frequency_score := frequencyScore,
            monetary_value := round2 monetaryValue,
            monetary_score := monetaryScore, rfm_score := rfmScore,
            rfm_segment := rfmSegment }

/-! ### CLV predictor (clvService) -/

/-- The calculateCLVConfidence score: base 50 with order-count, lifespan and recency
adjustments, clamped by Math.max(0, Math.min(100, confidence)). -/
def calculateCLVConfidence (totalOrders : Nat) (lifespanMonths : Rat)
    (daysSinceLastPurchase : Int) : Int :=
  let c0 : Int := 50
  let c1 := c0 + (if totalOrders ≥ 10 then 25
                  else if totalOrders ≥ 5 then 15
                  else if totalOrders ≥ 3 then 5 else 0)
  let c2 := c1 + (if lifespanMonths ≥ 12 then 15
                  else if lifespanMonths ≥ 6 then 10
                  else if lifespanMonths ≥ 3 then 5 else 0)
  let c3 := c2 + (if daysSinceLastPurchase ≤ 30 then 10
                  else if daysSinceLastPurchase ≤ 60 then 5
                  else if daysSinceLastPurchase > 180 then -15 else 0)
  max 0 (min 100 c3)

/-- Metrics block of the calculateCustomerCLV result. -/
structure CLVMetrics where
  average_order_value : Rat
  purchase_frequency : Rat
  customer_lifespan_months : Rat
  total_spent : Rat
  total_orders : Nat
deriving DecidableEq, Repr

/-- Result record of calculateCustomerCLV (the clv_multiplier and the two
extra metrics fields of the nonempty case, unused by every claim, are
projected away). -/
structure CLVOut where
  customer_id : Nat
  clv_predicted : Rat
  clv_confidence : Int
  metrics : CLVMetrics
deriving DecidableEq, Repr

/-- The calculateCustomerCLV predictor: `txns` is the customer's completed transactions
ordered oldest first (timestamp ASC). -/
def calculateCustomerCLV (customer : Option Customer) (txns : List Txn)
    (now : Int) : Except String CLVOut :=
  match customer with
  | none => .error "Customer not found"
  | some c =>
    match txns with
    | [] =>
      .ok { customer_id := c.id, clv_predicted := 0, clv_confidence := 0,
            metrics := { average_order_value := 0, purchase_frequency := 0,
                         customer_lifespan_months := 0, total_spent := 0,
                         total_orders := 0 } }
    | t0 :: _ =>
      let totalSpent := monetaryOf txns
      let totalOrders := txns.length
      let averageOrderValue := totalSpent / totalOrders
      let firstPurchase := t0.timestamp
      let lastPurchase := ((txns.getLast?).map (·.timestamp)).getD 0
      let lifespanDays : Int := max 1 (daysBetween lastPurchase firstPurchase)
      let lifespanMonths : Rat := max 1 ((lifespanDays : Rat) / 30)
      let purchaseFrequency := (totalOrders : Rat) / lifespanMonths
      let predictedLifespanMonths : Rat := 24
      let basicCLV := averageOrderValue * purchaseFrequency * predictedLifespanMonths
      let daysSinceLastPurchase := daysBetween now lastPurchase
      let m1 : Rat := 1 + (if daysSinceLastPurchase ≤ 30 then 3/10
                           else if daysSinceLastPurchase ≤ 60 then 15/100 else 0)
      let m2 := m1 + (if purchaseFrequency ≥ 2 then 25/100
                      else if purchaseFrequency ≥ 1 then 15/100 else 0)
      let recentOrders := txns.drop (totalOrders - 3)
      let olderOrders := txns.take (totalOrders - 3)
      let declinePenalty : Rat :=
        if totalOrders ≥ 3 ∧ olderOrders.length > 0 then
          let recentAvg := monetaryOf recentOrders / recentOrders.length
          let olderAvg := monetaryOf olderOrders / olderOrders.length
          if recentAvg < olderAvg * (7/10) then 2/10 else 0
        else 0
      let m3 := m2 - declinePenalty
      let clvMultiplier := max (1/2) (min 2 m3)
      let clvPredicted := basicCLV * clvMultiplier
      let confidenceScore :=
        calculateCLVConfidence totalOrders lifespanMonths daysSinceLastPurchase
      .ok { customer_id := c.id, clv_predicted := round2 clvPredicted,
            clv_confidence := confidenceScore,
            metrics := { average_order_value := round2 averageOrderValue,
                         purchase_frequency := round2 purchaseFrequency,
                         customer_lifespan_months := round2 lifespanMonths,
                         total_spent := round2 totalSpent,
                         total_orders := totalOrders } }

/-! ### Churn risk scorer (churnService) -/

/-- The calculatePurchaseFrequency helper: purchases per month over a transaction list
ordered newest first (transactions[0] is the latest). -/
def calculatePurchaseFrequency (txns : List Txn) : Rat :=
  if txns.length < 2 then 0
  else
    let firstDate := ((txns.getLast?).map (·.timestamp)).getD 0
    let lastDate := ((txns.head?).map (·.timestamp)).getD 0
    let monthsDiff : Rat := max 1 (((lastDate - firstDate : Int) : Rat) / (1000*60*60*24*30))
    (txns.length : Rat) / monthsDiff

/-- Result record of calculateChurnRisk. -/
structure ChurnOut where
  customer_id : Nat
  churn_risk_score : Nat
  churn_risk_level : String
  churn_indicators : List String
  prevention_strategies : List String
deriving DecidableEq, Repr

/-- JS falsy test on an optional string (null, undefined or empty). -/
def isFalsyStr : Option String → Bool
  | none => true
  | some s => s = ""

/-- Helper for jsSetDedup carrying the set of already-seen elements. -/
def jsSetDedupAux (seen : List String) : List String → List String
  | [] => []
  | x :: xs =>
    if x ∈ seen then jsSetDedupAux seen xs
    else x :: jsSetDedupAux (x :: seen) xs

/-- The JS idiom spread of new Set(list): removes duplicates keeping the
first occurrence of each element. -/
def jsSetDedup (l : List String) : List String := jsSetDedupAux [] l

/-- The calculateChurnRisk scorer: `txns` is the customer's completed transactions
ordered newest first; `failedLast90` is the Transaction.count of failed
transactions in the last 90 days (a separate query, evaluated only after
the empty-history early return). -/
def calculateChurnRisk (customer : Option Customer) (txns : List Txn)
    (failedLast90 : Nat) (now : Int) : Except String ChurnOut :=
  match customer with
  | none => .error "Customer not found"
  | some c =>
    match txns with
    | [] =>
      .ok { customer_id := c.id, churn_risk_score := 100,
            churn_risk_level := "critical",
            churn_indicators := ["no_purchase_history"],
            prevention_strategies := ["welcome_campaign", "first_purchase_incentive"] }
    | t0 :: _ =>
      let daysSinceLastPurchase := daysBetween now t0.timestamp
      -- Factor 1: recency (highest matching bucket only)
      let s1 : Nat := if daysSinceLastPurchase > 180 then 40
                      else if daysSinceLastPurchase > 90 then 30
                      else if daysSinceLastPurchase > 60 then 15 else 0
      let i1 : List String := if daysSinceLastPurchase > 180 then ["no_purchase_6_months"]
                      else if daysSinceLastPurchase > 90 then ["no_purchase_3_months"]
                      else if daysSinceLastPurchase > 60 then ["declining_activity"] else []
      let p1 : List String := if daysSinceLastPurchase > 180 then ["win_back_campaign", "exclusive_discount"]
                      else if daysSinceLastPurchase > 90 then ["re_engagement_email", "special_offer"]
                      else if daysSinceLastPurchase > 60 then ["reminder_email", "loyalty_reward"] else []
      -- Factor 2: purchase frequency decline over index halves
      let half := txns.length / 2
      let recentTransactions := txns.take half
      let olderTransactions := txns.drop half
      let recentFrequency := calculatePurchaseFrequency recentTransactions
      let olderFrequency := calculatePurchaseFrequency olderTransactions
      let s2 : Nat := if txns.length ≥ 4 then
                        (if recentFrequency < olderFrequency * (1/2) then 25
                         else if recentFrequency < olderFrequency * (7/10) then 15 else 0)
                      else 0
      let i2 : List String := if txns.length ≥ 4 then
                        (if recentFrequency < olderFrequency * (1/2) then ["frequency_decline_50%"]
                         else if recentFrequency < olderFrequency * (7/10) then ["frequency_decline_30%"] else [])
                      else []
      let p2 : List String := if txns.length ≥ 4 ∧ recentFrequency < olderFrequency * (1/2) then
                        ["personalized_recommendations"] else []
      -- Factor 3: spending decline over the same index halves
      let recentSpend := monetaryOf (txns.take half) / (half : Rat)
      let olderSpend := monetaryOf (txns.drop half) / ((txns.length - half : Nat) : Rat)
      let s3 : Nat := if txns.length ≥ 4 then
                        (if recentSpend < olderSpend * (6/10) then 20
                         else if recentSpend < olderSpend * (8/10) then 10 else 0)
                      else 0
      let i3 : List String := if txns.length ≥ 4 then
                        (if recentSpend < olderSpend * (6/10) then ["spending_decline_40%"]
                         else if recentSpend < olderSpend * (8/10) then ["spending_decline_20%"] else [])
                      else []
      let p3 : List String := if txns.length ≥ 4 ∧ recentSpend < olderSpend * (6/10) then
                        ["vip_incentive", "bundle_discount"] else []
      -- Factor 4: failed transactions in the last 90 days
      let s4 : Nat := if failedLast90 ≥ 3 then 15 else if failedLast90 ≥ 1 then 5 else 0
      let i4 : List String := if failedLast90 ≥ 3 then ["multiple_failed_transactions"]
                      else if failedLast90 ≥ 1 then ["failed_transaction"] else []
      let p4 : List String := if failedLast90 ≥ 3 then ["payment_assistance", "customer_support_outreach"] else []
      -- Factor 5: last order value below half of the all-time average
      let amounts := txns.map (·.total_amount)
      let avgAmount := (amounts.foldl (· + ·) 0) / (amounts.length : Rat)
      let lastAmount := (amounts.head?).getD 0
      let s5 : Nat := if txns.length ≥ 3 ∧ lastAmount < avgAmount * (1/2) then 10 else 0
      let i5 : List String := if txns.length ≥ 3 ∧ lastAmount < avgAmount * (1/2) then
                        ["low_value_last_order"] else []
      -- Factor 6: lowest or missing loyalty tier
      let lowTier := c.loyalty_tier = some "Bronze" ∨ isFalsyStr c.loyalty_tier
      let s6 : Nat := if lowTier then 10 else 0
      let i6 : List String := if lowTier then ["low_loyalty_tier"] else []
      let p6 : List String := if lowTier then ["loyalty_upgrade_offer"] else []
      let indicators := i1 ++ i2 ++ i3 ++ i4 ++ i5 ++ i6
      let strategies := p1 ++ p2 ++ p3 ++ p4 ++ p6
      let churnScore := min 100 (s1 + s2 + s3 + s4 + s5 + s6)
      let riskLevel := if churnScore ≥ 70 then "critical"
                       else if churnScore ≥ 50 then "high"
                       else if churnScore ≥ 30 then "medium"
                       else "low"
      let strategies2 := if indicators = [] then strategies ++ ["maintain_engagement"] else strategies
      .ok { customer_id := c.id, churn_risk_score := churnScore,
            churn_risk_level := riskLevel, churn_indicators := indicators,
            prevention_strategies := jsSetDedup strategies2 }

/-! ### Batch runners (calculateAllCustomersRFM, calculateAllCustomersCLV)

One iteration of a batch loop works on one customer: the data the loop
body reads for that customer (Customer.findByPk result and the completed
transactions query) plus whether the per-customer database write
(upsert/update) fails, are gathered in a per-customer environment. -/

/-- Per-customer environment of a batch iteration: the findByPk result,
the completed-transaction query result in the order the scorer requests,
and whether the per-customer persistence write throws. -/
structure CustEnv where
  customer : Option Customer
  txns : List Txn
  writeFails : Bool
deriving Repr

/-- Summary record returned by calculateAllCustomersRFM: total population,
processed and failed counts, and one counter per segment. -/
structure RFMBatchResult where
  total : Nat
  processed : Nat
  failed : Nat
  champions : Nat
  loyal : Nat
  potential : Nat
  atRisk : Nat
  lost : Nat
deriving DecidableEq, Repr

/-- Increment the segment counter named by determineSegment. The final
no-op branch is unreachable: determineSegment only returns the five names. -/
def bumpSegment (r : RFMBatchResult) (seg : String) : RFMBatchResult :=
  if seg = "Champions" then { r with champions := r.champions + 1 }
  else if seg = "Loyal" then { r with loyal := r.loyal + 1 }
  else if seg = "Potential" then { r with potential := r.potential + 1 }
  else if seg = "At Risk" then { r with atRisk := r.atRisk + 1 }
  else if seg = "Lost" then { r with lost := r.lost + 1 }
  else r

/-- One iteration of the calculateAllCustomersRFM loop: compute the RFM
data and upsert it; any failure is caught and counted, the loop goes on. -/
def rfmBatchStep (now : Int) (r : RFMBatchResult) (e : CustEnv) : RFMBatchResult :=
  match calculateCustomerRFM e.customer e.txns now with
  | .error _ => { r with failed := r.failed + 1 }
  | .ok rfmData =>
    if e.writeFails then { r with failed := r.failed + 1 }
    else { bumpSegment r rfmData.rfm_segment with processed := r.processed + 1 }

/-- The calculateAllCustomersRFM batch over the customer population given as the
per-customer environments, in iteration order. -/
def calculateAllCustomersRFM (now : Int) (envs : List CustEnv) : RFMBatchResult :=
  envs.foldl (rfmBatchStep now)
    { total := envs.length, processed := 0, failed := 0, champions := 0,
      loyal := 0, potential := 0, atRisk := 0, lost := 0 }

/-- Whether one calculateAllCustomersRFM iteration succeeds. -/
def rfmStepOk (now : Int) (e : CustEnv) : Bool :=
  (calculateCustomerRFM e.customer e.txns now).toOption.isSome && !e.writeFails

/-- JS division of a rational total by a count: 0/0 is NaN and x/0 is
Infinity, both modelled as none; a nonzero count divides normally. -/
def jsDivByCount (x : Rat) (n : Nat) : Option Rat :=
  if n = 0 then none else some (x / n)

/-- Summary record returned by calculateAllCustomersCLV. avg_clv is
total_predicted_value / processed, which JS computes unguarded. -/
structure CLVBatchResult where
  total : Nat
  processed : Nat
  failed : Nat
  total_predicted_value : Rat
  avg_clv : Option Rat
deriving DecidableEq, Repr

/-- One iteration of the calculateAllCustomersCLV loop. -/
def clvBatchStep (now : Int) (r : CLVBatchResult) (e : CustEnv) : CLVBatchResult :=
  match calculateCustomerCLV e.customer e.txns now with
  | .error _ => { r with failed := r.failed + 1 }
  | .ok clvData =>
    if e.writeFails then { r with failed := r.failed + 1 }
    else { r with
           total_predicted_value := r.total_predicted_value + clvData.clv_predicted,
           processed := r.processed + 1 }

/-- The calculateAllCustomersCLV batch: the loop followed by the final unguarded
avg_clv := total_predicted_value / processed. -/
def calculateAllCustomersCLV (now : Int) (envs : List CustEnv) : CLVBatchResult :=
  let r := envs.foldl (clvBatchStep now)
    { total := envs.length, processed := 0, failed := 0,
      total_predicted_value := 0, avg_clv := none }
  { r with avg_clv := jsDivByCount r.total_predicted_value r.processed }

/-- Whether one calculateAllCustomersCLV iteration succeeds. -/
def clvStepOk (now : Int) (e : CustEnv) : Bool :=
  (calculateCustomerCLV e.customer e.txns now).toOption.isSome && !e.writeFails

/-! ### Two-tier cache (cacheService)

The fast tier is the in-process NodeCache instance (an entry is live while
its absolute expiry lies strictly in the future); the durable tier is the
AnalyticsCache table (key, value, type, absolute expires_at). Both tiers
are key-indexed maps; timestamps are in milliseconds. -/

/-- The two cache tiers. mem maps a key to (value, expiry); db maps a key
to (value, cache_type, expires_at). -/
structure CacheState (α : Type) where
  mem : String → Option (α × Int)
  db : String → Option (α × String × Int)

/-- The cacheService.set(key, value, ttlHours, cacheType) write: writes the fast tier
with ttlSeconds = ttlHours*3600 and upserts the durable row with
expires_at = now + ttlHours*3600*1000. -/
def cacheSet (s : CacheState α) (now : Int) (key : String) (v : α)
    (ttlHours : Int) (cacheType : String) : CacheState α :=
  let ttlSeconds := ttlHours * 3600
  let expiresAt := now + ttlHours * 3600 * 1000
  { mem := fun k => if k = key then some (v, now + ttlSeconds * 1000) else s.mem k,
    db := fun k => if k = key then some (v, cacheType, expiresAt) else s.db k }

/-- The cacheService.get(key) read: fast tier first (live only while now < expiry);
on miss, the durable row restricted by expires_at ≥ now; on a durable hit
the fast tier is repopulated with the remaining TTL in whole seconds.
Returns the value found and the possibly-updated state. -/
def cacheGet (s : CacheState α) (now : Int) (key : String) :
    Option α × CacheState α :=
  let memValue : Option α :=
    match s.mem key with
    | some (v, e) => if now < e then some v else none
    | none => none
  match memValue with
  | some v => (some v, s)
  | none =>
    match s.db key with
    | some (v, _, expiresAt) =>
      if now ≤ expiresAt then
        let ttl := Int.fdiv (expiresAt - now) 1000
        (some v,
         { s with mem := fun k => if k = key then some (v, now + ttl * 1000) else s.mem k })
      else (none, s)
    | none => (none, s)

/-! ### Recommendation engine (recommendationService)

The database tables the engine reads are an explicit state. The fast and
durable cache tiers, consulted only through
cacheService.get(customer:id:recommendations), are abstracted by the
recCache field: the value that get would return for that key right now
(none on both-tier miss). Sorting with ORDER BY is modelled by a
structural insertion sort; the tie order of SQL is unspecified anyway. -/

/-- Stable insertion of x before the first y it may precede (f x y). -/
def insertSorted (f : α → α → Bool) (x : α) : List α → List α
  | [] => [x]
  | y :: ys => if f x y then x :: y :: ys else y :: insertSorted f x ys

/-- Insertion sort used to model ORDER BY and Array.prototype.sort. -/
def sortSorted (f : α → α → Bool) : List α → List α
  | [] => []
  | x :: xs => insertSorted f x (sortSorted f xs)

/-- A CustomerAnalytics row, restricted to the fields the engine reads. -/
structure AnalyticsRow where
  customer_id : Nat
  rfm_segment : Option String
deriving DecidableEq, Repr

/-- A persisted ProductRecommendation row, restricted to the fields the
12-hour cache path reads. -/
structure RecRow where
  customer_id : Nat
  product_id : Nat
  recommendation_score : Rat
  generated_at : Int
deriving DecidableEq, Repr

/-- An entry of the array generatePersonalizedRecommendations resolves to,
projected to the product it refers to and its score (the shapes of the
three JS resolution paths agree on these fields). -/
structure RecItem where
  productId : Nat
  score : Rat
deriving DecidableEq, Repr

/-- One sub-algorithm recommendation: product object, raw score, type tag
and reason string. -/
structure SubRec where
  product : Product
  score : Rat
  type : String
  reason : String
deriving DecidableEq, Repr

/-- The engine's view of the data store plus the cache-tier answer for the
customer:id:recommendations key. -/
structure RecState where
  customers : List Customer
  products : List Product
  transactions : List Txn
  analytics : List AnalyticsRow
  recRows : List RecRow
  recCache : Nat → Option (List RecItem)

/-- The customer's completed transactions (the findAll in
generatePersonalizedRecommendations). -/
def completedTxnsOf (s : RecState) (cid : Nat) : List Txn :=
  s.transactions.filter fun t => t.customer_id = cid ∧ t.status = .completed

/-- Membership in the affinity subquery: customers with a completed
transaction on at least one of the purchased products. -/
def coBuyer (s : RecState) (purchased : List Nat) (c : Nat) : Bool :=
  s.transactions.any fun t =>
    t.customer_id = c ∧ t.product_id ∈ purchased ∧ t.status = .completed

/-- The completed transactions the affinity query groups: by a co-buying
customer, on a product the target has not purchased. -/
def affinityCandidateTxns (s : RecState) (purchased : List Nat) : List Txn :=
  s.transactions.filter fun t =>
    t.status = .completed ∧ coBuyer s purchased t.customer_id ∧ t.product_id ∉ purchased

/-- GROUP BY product_id with COUNT(product_id), ORDER BY the count DESC,
LIMIT lim (the SQL grouping order is the database's choice; it is modelled
by dedup of the product-id column). -/
def topByCount (txns : List Txn) (lim : Nat) : List (Nat × Nat) :=
  let pids := (txns.map (·.product_id)).dedup
  let pairs := pids.map fun p => (p, txns.countP fun t => t.product_id = p)
  (sortSorted (fun a b => b.2 ≤ a.2) pairs).take lim

/-- The shared tail of the three sub-algorithms: fetch the grouped products
that are in stock and attach each product to its grouped count as the
score (parseFloat(count) with || 1 fallback). -/
def attachProducts (s : RecState) (pairs : List (Nat × Nat))
    (typeTag reason : String) : List SubRec :=
  (s.products.filter fun pr =>
      decide (pr.id ∈ pairs.map (·.1)) && decide (0 < pr.stock_quantity)).map
    fun pr =>
      { product := pr,
        score := (((pairs.find? fun q => q.1 = pr.id).map
                    fun q => (q.2 : Rat)).getD 1),
        type := typeTag, reason := reason }

/-- The getProductAffinityRecommendations(purchasedProductIds, limit)
sub-algorithm. -/
def getProductAffinityRecommendations (s : RecState) (purchased : List Nat)
    (lim : Nat) : List SubRec :=
  if purchased = [] then []
  else
    attachProducts s (topByCount (affinityCandidateTxns s purchased) lim)
      "affinity" "Frequently bought together with your previous purchases"

/-- The getCollaborativeFilteringRecommendations(customerId,
purchasedProductIds, limit) sub-algorithm. -/
def getCollaborativeFilteringRecommendations (s : RecState) (cid : Nat)
    (purchased : List Nat) (lim : Nat) : List SubRec :=
  match s.analytics.find? (fun a => a.customer_id = cid) with
  | none => []
  | some analytics =>
    match analytics.rfm_segment with
    | none => []
    | some segName =>
      if segName = "" then []
      else
        let similarCustomerIds :=
          ((s.analytics.filter fun a =>
              a.rfm_segment = some segName ∧ a.customer_id ≠ cid).take 50).map
            (·.customer_id)
        if similarCustomerIds = [] then []
        else
          attachProducts s
            (topByCount
              (s.transactions.filter fun t =>
                t.customer_id ∈ similarCustomerIds ∧
                t.product_id ∉ purchased ∧ t.status = .completed) lim)
            "collaborative"
            ("Popular among " ++ segName ++ " customers like you")

/-- The getSegmentBasedRecommendations(customerId, purchasedProductIds,
limit) sub-algorithm;
a null segment matches the other null-segment rows (IS NULL), and the JS
template prints it as the string null. -/
def getSegmentBasedRecommendations (s : RecState) (cid : Nat)
    (purchased : List Nat) (lim : Nat) : List SubRec :=
  match s.analytics.find? (fun a => a.customer_id = cid) with
  | none => []
  | some analytics =>
    let segmentCustomerIds :=
      (s.analytics.filter fun a => a.rfm_segment = analytics.rfm_segment).map
        (·.customer_id)
    attachProducts s
      (topByCount
        (s.transactions.filter fun t =>
          t.customer_id ∈ segmentCustomerIds ∧
          t.product_id ∉ purchased ∧ t.status = .completed) lim)
      "segment"
      ("Top choice for " ++ (analytics.rfm_segment.getD "null") ++ " segment")

/-- The normalizeScore(score, allScores) helper needs list extrema: (score - min) / (max - min) over the
scores of the list, 1 when max == min, 0 on the empty list. -/
def listMax : List Rat → Rat
  | [] => 0
  | x :: xs => xs.foldl max x

/-- Minimum of a score list (Math.min spread); 0 on the empty list, which
normalizeScore never reaches. -/
def listMin : List Rat → Rat
  | [] => 0
  | x :: xs => xs.foldl min x

/-- The normalizeScore function from the combiner. -/
def normalizeScore (score : Rat) (allScores : List SubRec) : Rat :=
  if allScores = [] then 0
  else
    let scores := allScores.map (·.score)
    let maxScore := listMax scores
    let minScore := listMin scores
    if maxScore = minScore then 1
    else (score - minScore) / (maxScore - minScore)

/-- The value stored per product id in the combiner's Map. -/
structure CombineEntry where
  product : Product
  totalScore : Rat
  reasons : List String
  types : List String
deriving DecidableEq, Repr

/-- The final combined recommendation record. -/
structure CombinedRec where
  product : Product
  recommendation_score : Rat
  recommendation_types : List String
  reasons : List String
deriving DecidableEq, Repr

/-- The weights object generatePersonalizedRecommendations passes to the
combiner. -/
structure Weights where
  affinity : Rat
  collaborative : Rat
  segment : Rat
deriving DecidableEq, Repr

/-- The literal weights at the combineRecommendations call site. -/
def recWeights : Weights := { affinity := 4/10, collaborative := 3/10, segment := 3/10 }

/-- JS Map.set: update in place preserving insertion order, append new
keys at the end. -/
def mapSet (m : List (Nat × CombineEntry)) (k : Nat) (v : CombineEntry) :
    List (Nat × CombineEntry) :=
  match m with
  | [] => [(k, v)]
  | (k0, v0) :: rest =>
    if k0 = k then (k, v) :: rest else (k0, v0) :: mapSet rest k v

/-- JS Map.get as an Option. -/
def mapGet (m : List (Nat × CombineEntry)) (k : Nat) : Option CombineEntry :=
  (m.find? fun kv => kv.1 = k).map (·.2)

/-- The affinity-pass callback of combineRecommendations: always set. -/
def combineStep1 (affinity : List SubRec) (weights : Weights)
    (m : List (Nat × CombineEntry)) (rec : SubRec) : List (Nat × CombineEntry) :=
  mapSet m rec.product.id
    { product := rec.product,
      totalScore := normalizeScore rec.score affinity * weights.affinity,
      reasons := [rec.reason], types := [rec.type] }

/-- The collaborative-pass callback of combineRecommendations: add into an
existing entry, or insert a fresh one. -/
def combineStep2 (collaborative : List SubRec) (weights : Weights)
    (m : List (Nat × CombineEntry)) (rec : SubRec) : List (Nat × CombineEntry) :=
  let normalizedScore := normalizeScore rec.score collaborative
  match mapGet m rec.product.id with
  | some existing =>
    mapSet m rec.product.id
      { existing with
        totalScore := existing.totalScore + normalizedScore * weights.collaborative,
        reasons := existing.reasons ++ [rec.reason],
        types := existing.types ++ [rec.type] }
  | none =>
    mapSet m rec.product.id
      { product := rec.product,
        totalScore := normalizedScore * weights.collaborative,
        reasons := [rec.reason], types := [rec.type] }

/-- The segment-pass callback of combineRecommendations. -/
def combineStep3 (segment : List SubRec) (weights : Weights)
    (m : List (Nat × CombineEntry)) (rec : SubRec) : List (Nat × CombineEntry) :=
  let normalizedScore := normalizeScore rec.score segment
  match mapGet m rec.product.id with
  | some existing =>
    mapSet m rec.product.id
      { existing with
        totalScore := existing.totalScore + normalizedScore * weights.segment,
        reasons := existing.reasons ++ [rec.reason],
        types := existing.types ++ [rec.type] }
  | none =>
    mapSet m rec.product.id
      { product := rec.product,
        totalScore := normalizedScore * weights.segment,
        reasons := [rec.reason], types := [rec.type] }

/-- The productScores map after the three passes of combineRecommendations. -/
def combineMap (affinity collaborative segment : List SubRec)
    (weights : Weights) : List (Nat × CombineEntry) :=
  let m1 := affinity.foldl (combineStep1 affinity weights) []
  let m2 := collaborative.foldl (combineStep2 collaborative weights) m1
  segment.foldl (combineStep3 segment weights) m2

/-- The combineRecommendations(affinity, collaborative, segment, weights) combiner:
three accumulation passes over a product-keyed map, then the map values
scaled by 100, rounded to 2 decimals and sorted descending. -/
def combineRecommendations (affinity collaborative segment : List SubRec)
    (weights : Weights) : List CombinedRec :=
  let recommendations := (combineMap affinity collaborative segment weights).map
    fun kv =>
      { product := kv.2.product,
        recommendation_score := round2 (kv.2.totalScore * 100),
        recommendation_types := jsSetDedup kv.2.types,
        reasons := kv.2.reasons }
  sortSorted (fun a b => b.recommendation_score ≤ a.recommendation_score)
    recommendations

/-- The getCachedRecommendations(customerId) path: the ProductRecommendation rows
generated within the last 12 hours, ordered by score descending; null when
there are none. -/
def getCachedRecommendations (s : RecState) (cid : Nat) (now : Int) :
    Option (List RecItem) :=
  let fresh := s.recRows.filter fun r =>
    r.customer_id = cid ∧ now - 12 * 60 * 60 * 1000 ≤ r.generated_at
  let ordered := sortSorted
    (fun a b : RecRow => b.recommendation_score ≤ a.recommendation_score) fresh
  if ordered.length > 0 then
    some (ordered.map fun r =>
      { productId := r.product_id, score := r.recommendation_score })
  else none

/-- The persisted-rows path and the recompute path of
generatePersonalizedRecommendations, entered after a fast/durable cache
miss. -/
def gpRecompute (s : RecState) (cid : Nat) (lim : Nat) (now : Int) :
    Except String (List RecItem) :=
  match getCachedRecommendations s cid now with
  | some cachedRecommendations => .ok (cachedRecommendations.take lim)
  | none =>
    let purchasedProductIds := (completedTxnsOf s cid).map (·.product_id)
    let affinityRecommendations :=
      getProductAffinityRecommendations s purchasedProductIds (lim * 2)
    let collaborativeRecommendations :=
      getCollaborativeFilteringRecommendations s cid purchasedProductIds (lim * 2)
    let segmentRecommendations :=
      getSegmentBasedRecommendations s cid purchasedProductIds (lim * 2)
    let combinedRecommendations := combineRecommendations
      affinityRecommendations collaborativeRecommendations
      segmentRecommendations recWeights
    .ok ((combinedRecommendations.take lim).map fun c =>
      { productId := c.product.id, score := c.recommendation_score })

/-- The generatePersonalizedRecommendations(customerId, limit) entry point: NotFound for a
missing customer; then the fast/durable cache, then the persisted 12-hour
rows, then the full recompute through the three sub-algorithms and the
combiner (the cache and row write-backs of the two later paths are
effects on other state and do not change the returned value). -/
def generatePersonalizedRecommendations (s : RecState) (cid : Nat)
    (lim : Nat) (now : Int) : Except String (List RecItem) :=
  match s.customers.find? (fun c => c.id = cid) with
  | none => .error "Customer not found"
  | some _ =>
    match s.recCache cid with
    | some l =>
      if l.length > 0 then .ok (l.take lim)
      else gpRecompute s cid lim now
    | none => gpRecompute s cid lim now

/-! ### Statement-side definitions for the claims -/

/-- The segment rule table as the specification words it, for comparison
with determineSegment. -/
def specSegmentRule (r f m : Nat) : String :=
  let total := r + f + m
  if total ≥ 13 ∧ r ≥ 4 ∧ f ≥ 4 ∧ m ≥ 4 then "Champions"
  else if total ≥ 10 ∧ f ≥ 3 ∧ m ≥ 3 then "Loyal"
  else if total ≥ 8 ∧ r ≤ 2 ∧ (f ≥ 3 ∨ m ≥ 3) then "At Risk"
  else if total ≤ 7 ∨ r = 1 then "Lost"
  else "Potential"

/-- The affinity score as the claim words it, for comparison with the
code: the number of distinct customers who bought (completed) at least one
of the target's purchased products and also bought (completed) the
candidate product. -/
def claimAffinityCoPurchasers (s : RecState) (purchased : List Nat)
    (candidate : Nat) : Nat :=
  (((s.transactions.filter fun t =>
      t.status = .completed ∧ t.product_id = candidate ∧
        coBuyer s purchased t.customer_id).map (·.customer_id)).dedup).length

/-- Whether a product id occurs in a sub-algorithm list. -/
def inIds (p : Nat) (l : List SubRec) : Bool :=
  l.any fun rec => rec.product.id = p

/-- The score a product id carries in a sub-algorithm list (0 if absent). -/
def scoreOfIn (p : Nat) (l : List SubRec) : Rat :=
  ((l.find? fun rec => rec.product.id = p).map (·.score)).getD 0

/-- The combined score a product id carries in a combiner output (0 if
absent). -/
def outScore (p : Nat) (out : List CombinedRec) : Rat :=
  ((out.find? fun c => c.product.id = p).map (·.recommendation_score)).getD 0

/-- Keep the list, or remove the product id from it: builds the
only-one-source counterpart lists of the monotonicity claim. -/
def keepOrDrop (keep : Bool) (p : Nat) (l : List SubRec) : List SubRec :=
  if keep then l else l.filter fun rec => rec.product.id ≠ p

/-- Select one of the three source lists. -/
def srcList (src : Fin 3) (a c s : List SubRec) : List SubRec :=
  if src = 0 then a else if src = 1 then c else s

/-! ### Concrete states used by counterexamples and witnesses -/

/-- A state where customer 1 has a completed purchase of product 5 while a
fresh persisted recommendation row (generated now) still recommends
product 5 to customer 1: reachable by generating recommendations while
the later-completed transaction was still pending. -/
def staleRowState : RecState :=
  { customers := [{ id := 1, loyalty_tier := none }],
    products := [{ id := 5, stock_quantity := 3 }],
    transactions := [{ customer_id := 1, product_id := 5, status := .completed,
                       timestamp := 0, total_amount := 100 }],
    analytics := [],
    recRows := [{ customer_id := 1, product_id := 5,
                  recommendation_score := 80, generated_at := 0 }],
    recCache := fun _ => none }

/-- A state where the target (customer 1) bought product 10, and customer
2 bought product 10 once and the candidate product 20 twice, all
completed: one co-purchasing customer, two co-purchase transactions. -/
def doubleBuyState : RecState :=
  { customers := [{ id := 1, loyalty_tier := none },
                  { id := 2, loyalty_tier := none }],
    products := [{ id := 10, stock_quantity := 4 },
                 { id := 20, stock_quantity := 4 }],
    transactions :=
      [{ customer_id := 1, product_id := 10, status := .completed,
         timestamp := 0, total_amount := 10 },
       { customer_id := 2, product_id := 10, status := .completed,
         timestamp := 1, total_amount := 10 },
       { customer_id := 2, product_id := 20, status := .completed,
         timestamp := 2, total_amount := 10 },
       { customer_id := 2, product_id := 20, status := .completed,
         timestamp := 3, total_amount := 10 }],
    analytics := [],
    recRows := [],
    recCache := fun _ => none }

/-- A state where customer 1 exists, has no completed purchases and no
analytics row (so no assigned RFM segment), yet a fresh persisted
recommendation row for product 5 remains: reachable by completing a
purchase, generating recommendations (which persists rows but creates no
analytics row), and then refunding the purchase through
updateTransactionStatus, which invalidates neither cache tier nor the
persisted rows. -/
def c9StaleState : RecState :=
  { customers := [{ id := 1, loyalty_tier := none }],
    products := [{ id := 5, stock_quantity := 3 }],
    transactions := [{ customer_id := 1, product_id := 5, status := .refunded,
                       timestamp := 0, total_amount := 100 }],
    analytics := [],
    recRows := [{ customer_id := 1, product_id := 5,
                  recommendation_score := 80, generated_at := 0 }],
    recCache := fun _ => none }

/-- A fresh state with a single customer and no history at all. -/
def freshState : RecState :=
  { customers := [{ id := 1, loyalty_tier := none }],
    products := [],
    transactions := [],
    analytics := [],
    recRows := [],
    recCache := fun _ => none }

/-- A two-candidate affinity list for the combiner monotonicity witness. -/
def c6affList : List SubRec :=
  [{ product := { id := 10, stock_quantity := 5 }, score := 3,
     type := "affinity", reason := "r" },
   { product := { id := 20, stock_quantity := 5 }, score := 1,
     type := "affinity", reason := "r" }]

/-- A one-candidate collaborative list for the combiner monotonicity
witness. -/
def c6colList : List SubRec :=
  [{ product := { id := 10, stock_quantity := 5 }, score := 2,
     type := "collaborative", reason := "r" }]

/-- One completed 480-dollar transaction for the Champions scenario. -/
def champTxn : Txn :=
  { customer_id := 1, product_id := 1, status := .completed,
    timestamp := 0, total_amount := 480 }

/-- The other 24 transactions of the Champions scenario. -/
def champRest : List Txn :=
  [champTxn, champTxn, champTxn, champTxn, champTxn, champTxn,
   champTxn, champTxn, champTxn, champTxn, champTxn, champTxn,
   champTxn, champTxn, champTxn, champTxn, champTxn, champTxn,
   champTxn, champTxn, champTxn, champTxn, champTxn, champTxn]

/-- The RFM sentinel record for customer 1. -/
def rfmEmptyOut : RFMOut :=
  { customer_id := 1, recency_days := 9999, recency_score := 1,
    frequency_count := 0, frequency_score := 1, monetary_value := 0,
    monetary_score := 1, rfm_score := 3, rfm_segment := "Lost" }

/-- The CLV sentinel record for customer 1. -/
def clvEmptyOut : CLVOut :=
  { customer_id := 1, clv_predicted := 0, clv_confidence := 0,
    metrics := { average_order_value := 0, purchase_frequency := 0,
                 customer_lifespan_months := 0, total_spent := 0,
                 total_orders := 0 } }

/-- The churn sentinel record for customer 1. -/
def churnEmptyOut : ChurnOut :=
  { customer_id := 1, churn_risk_score := 100, churn_risk_level := "critical",
    churn_indicators := ["no_purchase_history"],
    prevention_strategies := ["welcome_campaign", "first_purchase_incentive"] }

/-! ## Helper lemmas -/

/-- The calculateRecencyScore value lands in 1..5. -/
lemma calculateRecencyScore_bounds (d : Int) :
    1 ≤ calculateRecencyScore d ∧ calculateRecencyScore d ≤ 5 := by
  unfold calculateRecencyScore
  split_ifs <;> omega

/-- The calculateFrequencyScore value lands in 1..5. -/
lemma calculateFrequencyScore_bounds (n : Nat) :
    1 ≤ calculateFrequencyScore n ∧ calculateFrequencyScore n ≤ 5 := by
  unfold calculateFrequencyScore
  split_ifs <;> omega

/-- The calculateMonetaryScore value lands in 1..5. -/
lemma calculateMonetaryScore_bounds (a : Rat) :
    1 ≤ calculateMonetaryScore a ∧ calculateMonetaryScore a ≤ 5 := by
  unfold calculateMonetaryScore
  split_ifs <;> omega

/-- The determineSegment rule only produces the five segment names. -/
lemma determineSegment_mem (t r f m : Nat) :
    determineSegment t r f m ∈
      (["Champions", "Loyal", "At Risk", "Lost", "Potential"] : List String) := by
  unfold determineSegment
  split_ifs <;> simp

/-- The calculateCLVConfidence value is clamped to 0..100. -/
lemma calculateCLVConfidence_bounds (a : Nat) (b : Rat) (c : Int) :
    0 ≤ calculateCLVConfidence a b c ∧ calculateCLVConfidence a b c ≤ 100 := by
  simp only [calculateCLVConfidence]
  split_ifs <;> omega

/-! ## Claims -/

/-- Claim C1: for an existing customer with zero completed transactions,
calculateCustomerRFM returns the sentinel (recency 9999 days, all three
sub-scores 1, rfm_score 3, segment Lost), calculateCustomerCLV returns
zero predicted CLV with zero confidence, and calculateChurnRisk returns
score 100, level critical, with the no_purchase_history indicator. -/
theorem claim_C1 (c : Customer) (now : Int) (failedLast90 : Nat) :
    (∃ r, calculateCustomerRFM (some c) [] now = .ok r ∧
      r.recency_days = 9999 ∧ r.recency_score = 1 ∧ r.frequency_score = 1 ∧
      r.monetary_score = 1 ∧ r.rfm_score = 3 ∧ r.rfm_segment = "Lost") ∧
    (∃ v, calculateCustomerCLV (some c) [] now = .ok v ∧
      v.clv_predicted = 0 ∧ v.clv_confidence = 0) ∧
    (∃ h, calculateChurnRisk (some c) [] failedLast90 now = .ok h ∧
      h.churn_risk_score = 100 ∧ h.churn_risk_level = "critical" ∧
      "no_purchase_history" ∈ h.churn_indicators) := by
  refine ⟨⟨_, rfl, rfl, rfl, rfl, rfl, rfl, rfl⟩,
          ⟨_, rfl, rfl, rfl⟩,
          ⟨_, rfl, rfl, rfl, ?_⟩⟩
  simp

/-- Claim C2: for every customer and transaction history, each RFM
sub-score is in 1..5 and rfm_score is their sum (hence in 3..15);
clv_confidence is in 0..100; churn_risk_score is in 0..100. -/
theorem claim_C2 :
    (∀ customer txns now out,
      calculateCustomerRFM customer txns now = .ok out →
        1 ≤ out.recency_score ∧ out.recency_score ≤ 5 ∧
        1 ≤ out.frequency_score ∧ out.frequency_score ≤ 5 ∧
        1 ≤ out.monetary_score ∧ out.monetary_score ≤ 5 ∧
        out.rfm_score = out.recency_score + out.frequency_score + out.monetary_score ∧
        3 ≤ out.rfm_score ∧ out.rfm_score ≤ 15) ∧
    (∀ customer txns now out,
      calculateCustomerCLV customer txns now = .ok out →
        0 ≤ out.clv_confidence ∧ out.clv_confidence ≤ 100) ∧
    (∀ customer txns failedLast90 now out,
      calculateChurnRisk customer txns failedLast90 now = .ok out →
        0 ≤ out.churn_risk_score ∧ out.churn_risk_score ≤ 100) := by
  refine ⟨?_, ?_, ?_⟩
  · intro customer txns now out h
    cases customer with
    | none => simp [calculateCustomerRFM] at h
    | some c =>
      cases txns with
      | nil =>
        simp only [calculateCustomerRFM, Except.ok.injEq] at h
        subst h
        simp
      | cons t0 rest =>
        simp only [calculateCustomerRFM, Except.ok.injEq] at h
        subst h
        dsimp only
        obtain ⟨r1, r2⟩ := calculateRecencyScore_bounds (daysBetween now t0.timestamp)
        obtain ⟨f1, f2⟩ := calculateFrequencyScore_bounds (t0 :: rest).length
        obtain ⟨m1, m2⟩ := calculateMonetaryScore_bounds (monetaryOf (t0 :: rest))
        exact ⟨r1, r2, f1, f2, m1, m2, rfl, by omega, by omega⟩
  · intro customer txns now out h
    cases customer with
    | none => simp [calculateCustomerCLV] at h
    | some c =>
      cases txns with
      | nil =>
        simp only [calculateCustomerCLV, Except.ok.injEq] at h
        subst h
        simp
      | cons t0 rest =>
        simp only [calculateCustomerCLV, Except.ok.injEq] at h
        subst h
        exact calculateCLVConfidence_bounds _ _ _
  · intro customer txns failedLast90 now out h
    cases customer with
    | none => simp [calculateChurnRisk] at h
    | some c =>
      cases txns with
      | nil =>
        simp only [calculateChurnRisk, Except.ok.injEq] at h
        subst h
        simp
      | cons t0 rest =>
        simp only [calculateChurnRisk, Except.ok.injEq] at h
        subst h
        exact ⟨Nat.zero_le _, Nat.min_le_left _ _⟩

/-- Witness for claim C2: the three bound statements applied to an
existing customer with an empty completed-transaction history. -/
theorem claim_C2_witness :
    (calculateCustomerRFM (some { id := 1, loyalty_tier := none }) [] 0 =
        .ok rfmEmptyOut ∧
      (1 ≤ rfmEmptyOut.recency_score ∧ rfmEmptyOut.recency_score ≤ 5 ∧
       1 ≤ rfmEmptyOut.frequency_score ∧ rfmEmptyOut.frequency_score ≤ 5 ∧
       1 ≤ rfmEmptyOut.monetary_score ∧ rfmEmptyOut.monetary_score ≤ 5 ∧
       rfmEmptyOut.rfm_score = rfmEmptyOut.recency_score +
         rfmEmptyOut.frequency_score + rfmEmptyOut.monetary_score ∧
       3 ≤ rfmEmptyOut.rfm_score ∧ rfmEmptyOut.rfm_score ≤ 15)) ∧
    (calculateCustomerCLV (some { id := 1, loyalty_tier := none }) [] 0 =
        .ok clvEmptyOut ∧
      (0 ≤ clvEmptyOut.clv_confidence ∧ clvEmptyOut.clv_confidence ≤ 100)) ∧
    (calculateChurnRisk (some { id := 1, loyalty_tier := none }) [] 0 0 =
        .ok churnEmptyOut ∧
      (0 ≤ churnEmptyOut.churn_risk_score ∧
       churnEmptyOut.churn_risk_score ≤ 100)) :=
  ⟨⟨rfl, claim_C2.1 (some { id := 1, loyalty_tier := none }) [] 0 rfmEmptyOut rfl⟩,
   ⟨rfl, claim_C2.2.1 (some { id := 1, loyalty_tier := none }) [] 0 clvEmptyOut rfl⟩,
   ⟨rfl, claim_C2.2.2 (some { id := 1, loyalty_tier := none }) [] 0 0 churnEmptyOut rfl⟩⟩

/-- Claim C5: over sub-scores in 1..5, determineSegment agrees with the
first-match rule table of the specification, and the Champions scenario
(25 completed transactions totaling 12000, latest 5 days ago) scores
(5,5,5), total 15, segment Champions. -/
theorem claim_C5 :
    (∀ r f m : Nat, 1 ≤ r → r ≤ 5 → 1 ≤ f → f ≤ 5 → 1 ≤ m → m ≤ 5 →
      determineSegment (r + f + m) r f m = specSegmentRule r f m) ∧
    (∀ (c : Customer) (now : Int) (t0 : Txn) (rest : List Txn),
      (t0 :: rest).length = 25 →
      monetaryOf (t0 :: rest) = 12000 →
      daysBetween now t0.timestamp = 5 →
      ∃ out, calculateCustomerRFM (some c) (t0 :: rest) now = .ok out ∧
        out.recency_score = 5 ∧ out.frequency_score = 5 ∧
        out.monetary_score = 5 ∧ out.rfm_score = 15 ∧
        out.rfm_segment = "Champions") := by
  constructor
  · intro r f m hr1 hr2 hf1 hf2 hm1 hm2
    interval_cases r <;> interval_cases f <;> interval_cases m <;> rfl
  · intro c now t0 rest hlen hmon hdays
    have hr : calculateRecencyScore (daysBetween now t0.timestamp) = 5 := by
      rw [hdays]; decide
    have hf : calculateFrequencyScore (t0 :: rest).length = 5 := by
      rw [hlen]; decide
    have hm : calculateMonetaryScore (monetaryOf (t0 :: rest)) = 5 := by
      rw [hmon]; norm_num [calculateMonetaryScore]
    refine ⟨_, rfl, hr, hf, hm, ?_, ?_⟩
    · show calculateRecencyScore (daysBetween now t0.timestamp) +
          calculateFrequencyScore (t0 :: rest).length +
          calculateMonetaryScore (monetaryOf (t0 :: rest)) = 15
      rw [hr, hf, hm]
    · show determineSegment
          (calculateRecencyScore (daysBetween now t0.timestamp) +
           calculateFrequencyScore (t0 :: rest).length +
           calculateMonetaryScore (monetaryOf (t0 :: rest)))
          (calculateRecencyScore (daysBetween now t0.timestamp))
          (calculateFrequencyScore (t0 :: rest).length)
          (calculateMonetaryScore (monetaryOf (t0 :: rest))) = "Champions"
      rw [hr, hf, hm]
      decide

/-- Witness for claim C5: part one applied at the triple (5,5,5) and part
two applied to 25 concrete 480-dollar transactions, the latest five days
before the clock. -/
theorem claim_C5_witness :
    (determineSegment (5 + 5 + 5) 5 5 5 = specSegmentRule 5 5 5) ∧
    ((champTxn :: champRest).length = 25 ∧
     monetaryOf (champTxn :: champRest) = 12000 ∧
     daysBetween 432000000 champTxn.timestamp = 5 ∧
     ∃ out, calculateCustomerRFM (some { id := 1, loyalty_tier := none })
         (champTxn :: champRest) 432000000 = .ok out ∧
       out.recency_score = 5 ∧ out.frequency_score = 5 ∧
       out.monetary_score = 5 ∧ out.rfm_score = 15 ∧
       out.rfm_segment = "Champions") := by
  have hlen : (champTxn :: champRest).length = 25 := by decide
  have hmon : monetaryOf (champTxn :: champRest) = 12000 := by
    norm_num [monetaryOf, champRest, champTxn]
  have hdays : daysBetween 432000000 champTxn.timestamp = 5 := by decide
  exact ⟨claim_C5.1 5 5 5 (by decide) (by decide) (by decide) (by decide)
           (by decide) (by decide),
         hlen, hmon, hdays,
         claim_C5.2 { id := 1, loyalty_tier := none } 432000000 champTxn
           champRest hlen hmon hdays⟩

/-- Claim C7: with a positive TTL, set followed by an immediate get
returns the value, and any get strictly after the TTL has elapsed returns
absent; neither tier serves the entry past its expiry. -/
theorem claim_C7 (α : Type) (s : CacheState α) (now : Int) (k : String)
    (v : α) (ttlHours : Int) (cacheType : String) (httl : 0 < ttlHours) :
    (cacheGet (cacheSet s now k v ttlHours cacheType) now k).1 = some v ∧
    ∀ t : Int, now + ttlHours * 3600 * 1000 < t →
      (cacheGet (cacheSet s now k v ttlHours cacheType) t k).1 = none := by
  constructor
  · have hlt : now < now + ttlHours * 3600 * 1000 := by omega
    simp [cacheGet, cacheSet, hlt]
  · intro t ht
    have h1 : ¬(t < now + ttlHours * 3600 * 1000) := by omega
    have h2 : ¬(t ≤ now + ttlHours * 3600 * 1000) := by omega
    simp [cacheGet, cacheSet, h1, h2]

/-- Witness for claim C7: a one-hour entry on the empty cache is readable
at the write instant and absent one millisecond after the hour. -/
theorem claim_C7_witness :
    0 < (1 : Int) ∧
    (cacheGet (cacheSet (CacheState.mk (fun _ => none) (fun _ => none))
        0 "k" (7 : Nat) 1 "t") 0 "k").1 = some 7 ∧
    (cacheGet (cacheSet (CacheState.mk (fun _ => none) (fun _ => none))
        0 "k" (7 : Nat) 1 "t") 3600001 "k").1 = none := by
  have h := claim_C7 Nat (CacheState.mk (fun _ => none) (fun _ => none))
    0 "k" 7 1 "t" (by decide)
  exact ⟨by decide, h.1, h.2 3600001 (by decide)⟩

/-- A Boolean predicate splits a list count into matches and rest. -/
lemma countP_ok_add_not {α : Type} (p : α → Bool) (l : List α) :
    l.countP p + l.countP (fun e => !p e) = l.length := by
  induction l with
  | nil => simp
  | cons x xs ih =>
    simp only [List.countP_cons, List.length_cons]
    by_cases hb : p x = true <;> simp [hb] <;> omega

/-- The bumpSegment update never touches the total, processed and failed counters. -/
lemma bumpSegment_misc (r : RFMBatchResult) (seg : String) :
    (bumpSegment r seg).total = r.total ∧
    (bumpSegment r seg).processed = r.processed ∧
    (bumpSegment r seg).failed = r.failed := by
  unfold bumpSegment
  split_ifs <;> simp

/-- The bumpSegment update adds exactly one to the five-counter sum for each of the
five segment names. -/
lemma bumpSegment_sum (r : RFMBatchResult) (seg : String)
    (h : seg ∈ (["Champions", "Loyal", "At Risk", "Lost", "Potential"] : List String)) :
    (bumpSegment r seg).champions + (bumpSegment r seg).loyal +
      (bumpSegment r seg).potential + (bumpSegment r seg).atRisk +
      (bumpSegment r seg).lost =
    r.champions + r.loyal + r.potential + r.atRisk + r.lost + 1 := by
  simp only [List.mem_cons, List.not_mem_nil, or_false] at h
  rcases h with rfl | rfl | rfl | rfl | rfl <;> simp [bumpSegment] <;> omega

/-- The calculateCustomerRFM scorer only assigns the five segment names. -/
lemma calculateCustomerRFM_segment_mem (customer : Option Customer)
    (txns : List Txn) (now : Int) (out : RFMOut)
    (h : calculateCustomerRFM customer txns now = .ok out) :
    out.rfm_segment ∈
      (["Champions", "Loyal", "At Risk", "Lost", "Potential"] : List String) := by
  cases customer with
  | none => simp [calculateCustomerRFM] at h
  | some c =>
    cases txns with
    | nil =>
      simp only [calculateCustomerRFM, Except.ok.injEq] at h
      subst h
      simp
    | cons t0 rest =>
      simp only [calculateCustomerRFM, Except.ok.injEq] at h
      subst h
      exact determineSegment_mem _ _ _ _

/-- A successful calculateAllCustomersRFM iteration bumps one of the five
segment counters and the processed counter. -/
lemma rfmBatchStep_ok (now : Int) (acc : RFMBatchResult) (e : CustEnv)
    (h : rfmStepOk now e = true) :
    ∃ seg,
      seg ∈ (["Champions", "Loyal", "At Risk", "Lost", "Potential"] : List String) ∧
      rfmBatchStep now acc e =
        { bumpSegment acc seg with processed := acc.processed + 1 } := by
  unfold rfmStepOk at h
  unfold rfmBatchStep
  cases hc : calculateCustomerRFM e.customer e.txns now with
  | error err => rw [hc] at h; simp [Except.toOption] at h
  | ok d =>
    rw [hc] at h
    simp only [Except.toOption, Option.isSome_some, Bool.true_and,
      Bool.not_eq_eq_eq_not, Bool.not_true] at h
    exact ⟨d.rfm_segment,
      calculateCustomerRFM_segment_mem e.customer e.txns now d hc,
      by simp [h]⟩

/-- A failing calculateAllCustomersRFM iteration only bumps failed. -/
lemma rfmBatchStep_fail (now : Int) (acc : RFMBatchResult) (e : CustEnv)
    (h : rfmStepOk now e = false) :
    rfmBatchStep now acc e = { acc with failed := acc.failed + 1 } := by
  unfold rfmStepOk at h
  unfold rfmBatchStep
  cases hc : calculateCustomerRFM e.customer e.txns now with
  | error err => rfl
  | ok d =>
    rw [hc] at h
    simp only [Except.toOption, Option.isSome_some, Bool.true_and,
      Bool.not_eq_false'] at h
    simp [h]

/-- Accumulator invariant of the calculateAllCustomersRFM loop. -/
lemma rfmBatch_foldl (now : Int) (envs : List CustEnv) (acc : RFMBatchResult) :
    (envs.foldl (rfmBatchStep now) acc).total = acc.total ∧
    (envs.foldl (rfmBatchStep now) acc).processed =
      acc.processed + envs.countP (rfmStepOk now) ∧
    (envs.foldl (rfmBatchStep now) acc).failed =
      acc.failed + envs.countP (fun e => !rfmStepOk now e) ∧
    (envs.foldl (rfmBatchStep now) acc).champions +
      (envs.foldl (rfmBatchStep now) acc).loyal +
      (envs.foldl (rfmBatchStep now) acc).potential +
      (envs.foldl (rfmBatchStep now) acc).atRisk +
      (envs.foldl (rfmBatchStep now) acc).lost =
    acc.champions + acc.loyal + acc.potential + acc.atRisk + acc.lost +
      envs.countP (rfmStepOk now) := by
  induction envs generalizing acc with
  | nil => simp
  | cons e rest ih =>
    simp only [List.foldl_cons, List.countP_cons]
    by_cases hok : rfmStepOk now e = true
    · obtain ⟨seg, hmem, hstep⟩ := rfmBatchStep_ok now acc e hok
      obtain ⟨ih1, ih2, ih3, ih4⟩ :=
        ih { bumpSegment acc seg with processed := acc.processed + 1 }
      obtain ⟨b1, b2, b3⟩ := bumpSegment_misc acc seg
      have bs := bumpSegment_sum acc seg hmem
      rw [hstep, ih1, ih2, ih3, ih4]
      dsimp only
      rw [b1, b3]
      simp [hok]
      omega
    · obtain ⟨ih1, ih2, ih3, ih4⟩ := ih { acc with failed := acc.failed + 1 }
      rw [rfmBatchStep_fail now acc e (by simpa using hok), ih1, ih2, ih3, ih4]
      dsimp only
      simp only [Bool.not_eq_true] at hok
      simp [hok]
      omega

/-- Claim C8: calculateAllCustomersRFM visits every customer environment;
a per-customer failure is counted and does not abort the run; the summary
has the five segment counters plus the failed counter, processed counts
the successes, failed the failures, and processed + failed accounts for
the whole population. -/
theorem claim_C8 (now : Int) (envs : List CustEnv) :
    (calculateAllCustomersRFM now envs).total = envs.length ∧
    (calculateAllCustomersRFM now envs).processed = envs.countP (rfmStepOk now) ∧
    (calculateAllCustomersRFM now envs).failed =
      envs.countP (fun e => !rfmStepOk now e) ∧
    (calculateAllCustomersRFM now envs).processed +
      (calculateAllCustomersRFM now envs).failed = envs.length ∧
    (calculateAllCustomersRFM now envs).champions +
      (calculateAllCustomersRFM now envs).loyal +
      (calculateAllCustomersRFM now envs).potential +
      (calculateAllCustomersRFM now envs).atRisk +
      (calculateAllCustomersRFM now envs).lost =
    (calculateAllCustomersRFM now envs).processed := by
  have hcount := countP_ok_add_not (rfmStepOk now) envs
  obtain ⟨h1, h2, h3, h4⟩ := rfmBatch_foldl now envs
    { total := envs.length, processed := 0, failed := 0, champions := 0,
      loyal := 0, potential := 0, atRisk := 0, lost := 0 }
  unfold calculateAllCustomersRFM
  refine ⟨by rw [h1], by rw [h2]; simp, by rw [h3]; simp, ?_, ?_⟩
  · rw [h2, h3]
    simp
    omega
  · rw [h4, h2]
    simp

/-- A successful calculateAllCustomersCLV iteration accumulates the
predicted value and the processed counter. -/
lemma clvBatchStep_ok (now : Int) (acc : CLVBatchResult) (e : CustEnv)
    (h : clvStepOk now e = true) :
    ∃ d, calculateCustomerCLV e.customer e.txns now = .ok d ∧
      clvBatchStep now acc e =
        { acc with
          total_predicted_value := acc.total_predicted_value + d.clv_predicted,
          processed := acc.processed + 1 } := by
  unfold clvStepOk at h
  unfold clvBatchStep
  cases hc : calculateCustomerCLV e.customer e.txns now with
  | error err => rw [hc] at h; simp [Except.toOption] at h
  | ok d =>
    rw [hc] at h
    simp only [Except.toOption, Option.isSome_some, Bool.true_and,
      Bool.not_eq_eq_eq_not, Bool.not_true] at h
    exact ⟨d, rfl, by simp [h]⟩

/-- A failing calculateAllCustomersCLV iteration only bumps failed. -/
lemma clvBatchStep_fail (now : Int) (acc : CLVBatchResult) (e : CustEnv)
    (h : clvStepOk now e = false) :
    clvBatchStep now acc e = { acc with failed := acc.failed + 1 } := by
  unfold clvStepOk at h
  unfold clvBatchStep
  cases hc : calculateCustomerCLV e.customer e.txns now with
  | error err => rfl
  | ok d =>
    rw [hc] at h
    simp only [Except.toOption, Option.isSome_some, Bool.true_and,
      Bool.not_eq_false'] at h
    simp [h]

/-- Accumulator invariant of the calculateAllCustomersCLV loop. -/
lemma clvBatch_foldl (now : Int) (envs : List CustEnv) (acc : CLVBatchResult) :
    (envs.foldl (clvBatchStep now) acc).total = acc.total ∧
    (envs.foldl (clvBatchStep now) acc).processed =
      acc.processed + envs.countP (clvStepOk now) ∧
    (envs.foldl (clvBatchStep now) acc).failed =
      acc.failed + envs.countP (fun e => !clvStepOk now e) := by
  induction envs generalizing acc with
  | nil => simp
  | cons e rest ih =>
    simp only [List.foldl_cons, List.countP_cons]
    by_cases hok : clvStepOk now e = true
    · obtain ⟨d, hd, hstep⟩ := clvBatchStep_ok now acc e hok
      obtain ⟨ih1, ih2, ih3⟩ := ih
        { acc with
          total_predicted_value := acc.total_predicted_value + d.clv_predicted,
          processed := acc.processed + 1 }
      rw [hstep, ih1, ih2, ih3]
      dsimp only
      simp [hok]
      omega
    · obtain ⟨ih1, ih2, ih3⟩ := ih { acc with failed := acc.failed + 1 }
      rw [clvBatchStep_fail now acc e (by simpa using hok), ih1, ih2, ih3]
      dsimp only
      simp only [Bool.not_eq_true] at hok
      simp [hok]
      omega

/-- Claim C10: when calculateAllCustomersCLV successfully processes zero
customers (empty population or every iteration failing), the final
avg_clv division has a zero divisor, the unguarded JS division that
produces NaN (modelled as none); avg_clv is a number exactly when at
least one customer was processed. -/
theorem claim_C10 :
    (∀ (now : Int) (envs : List CustEnv),
      (envs = [] ∨ ∀ e ∈ envs, clvStepOk now e = false) →
        (calculateAllCustomersCLV now envs).processed = 0 ∧
        (calculateAllCustomersCLV now envs).avg_clv =
          jsDivByCount (calculateAllCustomersCLV now envs).total_predicted_value 0 ∧
        (calculateAllCustomersCLV now envs).avg_clv = none) ∧
    (∀ (now : Int) (envs : List CustEnv),
      0 < (calculateAllCustomersCLV now envs).processed →
        (calculateAllCustomersCLV now envs).avg_clv =
          some ((calculateAllCustomersCLV now envs).total_predicted_value /
            ((calculateAllCustomersCLV now envs).processed : Rat))) := by
  have key : ∀ (now : Int) (envs : List CustEnv),
      (calculateAllCustomersCLV now envs).processed = envs.countP (clvStepOk now) ∧
      (calculateAllCustomersCLV now envs).avg_clv =
        jsDivByCount (calculateAllCustomersCLV now envs).total_predicted_value
          (calculateAllCustomersCLV now envs).processed := by
    intro now envs
    obtain ⟨h1, h2, h3⟩ := clvBatch_foldl now envs
      { total := envs.length, processed := 0, failed := 0,
        total_predicted_value := 0, avg_clv := none }
    unfold calculateAllCustomersCLV
    dsimp only
    rw [h2]
    exact ⟨by simp, rfl⟩
  constructor
  · intro now envs hzero
    have hp : (calculateAllCustomersCLV now envs).processed = 0 := by
      rw [(key now envs).1]
      rcases hzero with rfl | hall
      · simp
      · exact List.countP_eq_zero.mpr (by simpa using hall)
    have ha := (key now envs).2
    rw [hp] at ha
    exact ⟨hp, ha, by rw [ha]; simp [jsDivByCount]⟩
  · intro now envs hpos
    have ha := (key now envs).2
    rw [ha]
    unfold jsDivByCount
    rw [if_neg (by omega)]

/-- Witness for claim C10: the empty population yields a zero divisor and
NaN average; one successfully processed customer yields a number. -/
theorem claim_C10_witness :
    ((calculateAllCustomersCLV 0 []).processed = 0 ∧
     (calculateAllCustomersCLV 0 []).avg_clv =
       jsDivByCount (calculateAllCustomersCLV 0 []).total_predicted_value 0 ∧
     (calculateAllCustomersCLV 0 []).avg_clv = none) ∧
    (calculateAllCustomersCLV 0
        [{ customer := some { id := 1, loyalty_tier := none }, txns := [],
           writeFails := false }]).avg_clv =
      some ((calculateAllCustomersCLV 0
        [{ customer := some { id := 1, loyalty_tier := none }, txns := [],
           writeFails := false }]).total_predicted_value /
        ((calculateAllCustomersCLV 0
        [{ customer := some { id := 1, loyalty_tier := none }, txns := [],
           writeFails := false }]).processed : Rat)) :=
  ⟨claim_C10.1 0 [] (Or.inl rfl),
   claim_C10.2 0
     [{ customer := some { id := 1, loyalty_tier := none }, txns := [],
        writeFails := false }] (by decide)⟩

/-- Inserting into the insertion sort permutes a cons. -/
lemma insertSorted_perm {α : Type} (f : α → α → Bool) (x : α) (l : List α) :
    (insertSorted f x l).Perm (x :: l) := by
  induction l with
  | nil => exact List.Perm.refl _
  | cons y ys ih =>
    simp only [insertSorted]
    split
    · exact List.Perm.refl _
    · exact (List.Perm.cons y ih).trans (List.Perm.swap x y ys)

/-- The insertion sort is a permutation of its input. -/
lemma sortSorted_perm {α : Type} (f : α → α → Bool) (l : List α) :
    (sortSorted f l).Perm l := by
  induction l with
  | nil => exact List.Perm.refl _
  | cons x xs ih =>
    exact (insertSorted_perm f x (sortSorted f xs)).trans (List.Perm.cons x ih)

/-- Sorting preserves membership. -/
lemma sortSorted_mem {α : Type} (f : α → α → Bool) (l : List α) (x : α) :
    x ∈ sortSorted f l ↔ x ∈ l :=
  (sortSorted_perm f l).mem_iff

/-- Claim C9 amended: an existing customer with no completed purchases,
no analytics row (hence no assigned segment), nothing non-empty cached on
the fast/durable tiers and no persisted row from the last 12 hours gets
the empty recommendation list: all three sub-algorithms contribute no
candidates. The original claim omitted the cache conditions and fails on
stale cached entries (see the counterexample). -/
theorem claim_C9_amended (s : RecState) (cid lim : Nat) (now : Int) (c : Customer)
    (hcust : s.customers.find? (fun x => x.id = cid) = some c)
    (hcache : ∀ l, s.recCache cid = some l → l = [])
    (hdb : getCachedRecommendations s cid now = none)
    (htx : completedTxnsOf s cid = [])
    (han : s.analytics.find? (fun a => a.customer_id = cid) = none) :
    generatePersonalizedRecommendations s cid lim now = .ok [] := by
  have hrec : gpRecompute s cid lim now = .ok [] := by
    unfold gpRecompute
    rw [hdb]
    rw [htx]
    simp [getProductAffinityRecommendations, getCollaborativeFilteringRecommendations,
      getSegmentBasedRecommendations, han, combineRecommendations, combineMap,
      sortSorted]
  unfold generatePersonalizedRecommendations
  rw [hcust]
  cases hc : s.recCache cid with
  | none => exact hrec
  | some l =>
    have hl : l = [] := hcache l hc
    subst hl
    simpa using hrec

/-- Witness for the amended claim C9: the fresh single-customer state. -/
theorem claim_C9_amended_witness :
    freshState.customers.find? (fun x => x.id = 1) =
      some { id := 1, loyalty_tier := none } ∧
    getCachedRecommendations freshState 1 0 = none ∧
    completedTxnsOf freshState 1 = [] ∧
    freshState.analytics.find? (fun a => a.customer_id = 1) = none ∧
    generatePersonalizedRecommendations freshState 1 5 0 = .ok [] :=
  ⟨rfl, rfl, rfl, rfl,
   claim_C9_amended freshState 1 5 0 { id := 1, loyalty_tier := none } rfl
     (fun l h => by simp [freshState] at h) rfl rfl rfl⟩

/-- Counterexample to claim C9: in c9StaleState customer 1 exists, has no
completed purchases and no analytics row (hence no assigned RFM segment),
yet generatePersonalizedRecommendations returns a non-empty list, because
the fresh persisted recommendation row is served without re-checking the
customer's current history. -/
theorem claim_C9_counterexample :
    c9StaleState.customers.find? (fun x => x.id = 1) =
      some { id := 1, loyalty_tier := none } ∧
    completedTxnsOf c9StaleState 1 = [] ∧
    c9StaleState.analytics.find? (fun a => a.customer_id = 1) = none ∧
    generatePersonalizedRecommendations c9StaleState 1 5 0 =
      .ok [{ productId := 5, score := 80 }] :=
  ⟨rfl, rfl, rfl, rfl⟩

/-- Counterexample to claim C3: in staleRowState the persisted 12-hour
recommendation row still refers to product 5, which customer 1 has
meanwhile bought in a completed transaction, and the engine returns it
unchecked. -/
theorem claim_C3_counterexample :
    generatePersonalizedRecommendations staleRowState 1 5 0 =
      .ok [{ productId := 5, score := 80 }] ∧
    5 ∈ (completedTxnsOf staleRowState 1).map (·.product_id) := by
  constructor
  · rfl
  · decide

/-- Every attachProducts entry carries an in-stock product from the
products table whose id is one of the grouped pairs, scored by the find?
lookup. -/
lemma attachProducts_mem (s : RecState) (pairs : List (Nat × Nat))
    (typeTag reason : String) (e : SubRec)
    (he : e ∈ attachProducts s pairs typeTag reason) :
    e.product ∈ s.products ∧ 0 < e.product.stock_quantity ∧
      e.product.id ∈ pairs.map (·.1) ∧
      e.score = (((pairs.find? fun q => q.1 = e.product.id).map
        (fun q => (q.2 : Rat))).getD 1) := by
  unfold attachProducts at he
  obtain ⟨pr, hpr, rfl⟩ := List.mem_map.mp he
  obtain ⟨h1, h2⟩ := List.mem_filter.mp hpr
  simp only [Bool.and_eq_true, decide_eq_true_eq] at h2
  exact ⟨h1, h2.2, h2.1, rfl⟩

/-- Every grouped pair of topByCount is a product id of the grouped
transaction list together with its exact transaction count. -/
lemma topByCount_mem (txns : List Txn) (lim : Nat) (q : Nat × Nat)
    (hq : q ∈ topByCount txns lim) :
    q.1 ∈ txns.map (·.product_id) ∧
    q.2 = txns.countP (fun t => t.product_id = q.1) := by
  simp only [topByCount] at hq
  have hq2 := List.mem_of_mem_take hq
  rw [sortSorted_mem] at hq2
  obtain ⟨p, hp, hpq⟩ := List.mem_map.mp hq2
  cases hpq
  exact ⟨List.mem_dedup.mp hp, rfl⟩

/-- Affinity entries are in-stock catalogue products outside the
purchased set. -/
lemma affinity_sound (s : RecState) (purchased : List Nat) (lim : Nat)
    (e : SubRec) (he : e ∈ getProductAffinityRecommendations s purchased lim) :
    e.product ∈ s.products ∧ 0 < e.product.stock_quantity ∧
      e.product.id ∉ purchased := by
  unfold getProductAffinityRecommendations at he
  split at he
  · exact absurd he (List.not_mem_nil e)
  · obtain ⟨h1, h2, h3, _⟩ := attachProducts_mem _ _ _ _ _ he
    refine ⟨h1, h2, ?_⟩
    obtain ⟨q, hq, hq1⟩ := List.mem_map.mp h3
    obtain ⟨hmem, _⟩ := topByCount_mem _ _ _ hq
    rw [← hq1]
    obtain ⟨t, ht, hpid⟩ := List.mem_map.mp hmem
    have hf := (List.mem_filter.mp ht).2
    simp only [decide_eq_true_eq] at hf
    rw [← hpid]
    exact hf.2.2

/-- Collaborative entries are in-stock catalogue products outside the
purchased set. -/
lemma collaborative_sound (s : RecState) (cid : Nat) (purchased : List Nat)
    (lim : Nat) (e : SubRec)
    (he : e ∈ getCollaborativeFilteringRecommendations s cid purchased lim) :
    e.product ∈ s.products ∧ 0 < e.product.stock_quantity ∧
      e.product.id ∉ purchased := by
  unfold getCollaborativeFilteringRecommendations at he
  split at he
  · exact absurd he (List.not_mem_nil e)
  · split at he
    · exact absurd he (List.not_mem_nil e)
    · split at he
      · exact absurd he (List.not_mem_nil e)
      · dsimp only at he
        split at he
        · exact absurd he (List.not_mem_nil e)
        · obtain ⟨h1, h2, h3, _⟩ := attachProducts_mem _ _ _ _ _ he
          refine ⟨h1, h2, ?_⟩
          obtain ⟨q, hq, hq1⟩ := List.mem_map.mp h3
          obtain ⟨hmem, _⟩ := topByCount_mem _ _ _ hq
          rw [← hq1]
          obtain ⟨t, ht, hpid⟩ := List.mem_map.mp hmem
          have hf := (List.mem_filter.mp ht).2
          simp only [decide_eq_true_eq] at hf
          rw [← hpid]
          exact hf.2.1

/-- Segment entries are in-stock catalogue products outside the purchased
set. -/
lemma segment_sound (s : RecState) (cid : Nat) (purchased : List Nat)
    (lim : Nat) (e : SubRec)
    (he : e ∈ getSegmentBasedRecommendations s cid purchased lim) :
    e.product ∈ s.products ∧ 0 < e.product.stock_quantity ∧
      e.product.id ∉ purchased := by
  unfold getSegmentBasedRecommendations at he
  split at he
  · exact absurd he (List.not_mem_nil e)
  · obtain ⟨h1, h2, h3, _⟩ := attachProducts_mem _ _ _ _ _ he
    refine ⟨h1, h2, ?_⟩
    obtain ⟨q, hq, hq1⟩ := List.mem_map.mp h3
    obtain ⟨hmem, _⟩ := topByCount_mem _ _ _ hq
    rw [← hq1]
    obtain ⟨t, ht, hpid⟩ := List.mem_map.mp hmem
    have hf := (List.mem_filter.mp ht).2
    simp only [decide_eq_true_eq] at hf
    rw [← hpid]
    exact hf.2.1

/-- A Map.set result decomposes into the written pair or an old pair. -/
lemma mapSet_mem (m : List (Nat × CombineEntry)) (k : Nat) (v : CombineEntry)
    (kv : Nat × CombineEntry) (h : kv ∈ mapSet m k v) :
    kv = (k, v) ∨ kv ∈ m := by
  induction m with
  | nil =>
    simp only [mapSet, List.mem_singleton] at h
    exact Or.inl h
  | cons hd tl ih =>
    obtain ⟨k0, v0⟩ := hd
    simp only [mapSet] at h
    split at h
    · rcases List.mem_cons.mp h with h' | h'
      · exact Or.inl h'
      · exact Or.inr (List.mem_cons_of_mem _ h')
    · rcases List.mem_cons.mp h with h' | h'
      · exact Or.inr (by rw [h']; exact List.mem_cons_self _ _)
      · rcases ih h' with h'' | h''
        · exact Or.inl h''
        · exact Or.inr (List.mem_cons_of_mem _ h'')

/-- A successful Map.get pins the pair as a member of the map. -/
lemma mapGet_mem (m : List (Nat × CombineEntry)) (k : Nat) (e : CombineEntry)
    (h : mapGet m k = some e) : (k, e) ∈ m := by
  unfold mapGet at h
  cases hf : m.find? (fun kv => kv.1 = k) with
  | none => rw [hf] at h; simp at h
  | some kv =>
    rw [hf] at h
    simp only [Option.map_some', Option.some.injEq] at h
    have hm := List.mem_of_find?_eq_some hf
    have hp := List.find?_some hf
    simp only [decide_eq_true_eq] at hp
    obtain ⟨k1, v1⟩ := kv
    cases hp
    cases h
    exact hm

/-- Every combineStep2 application is a Map.set at the entry's key, with
a value whose product is the fresh record's or the existing entry's. -/
lemma combineStep2_cases (c : List SubRec) (w : Weights)
    (m : List (Nat × CombineEntry)) (rec : SubRec) :
    (∃ ex, mapGet m rec.product.id = some ex ∧
      combineStep2 c w m rec = mapSet m rec.product.id
        { ex with
          totalScore := ex.totalScore + normalizeScore rec.score c * w.collaborative,
          reasons := ex.reasons ++ [rec.reason],
          types := ex.types ++ [rec.type] }) ∨
    (mapGet m rec.product.id = none ∧
      combineStep2 c w m rec = mapSet m rec.product.id
        { product := rec.product,
          totalScore := normalizeScore rec.score c * w.collaborative,
          reasons := [rec.reason], types := [rec.type] }) := by
  unfold combineStep2
  cases h : mapGet m rec.product.id with
  | none => exact Or.inr ⟨rfl, rfl⟩
  | some ex => exact Or.inl ⟨ex, rfl, rfl⟩

/-- Every combineStep3 application is a Map.set at the entry's key, with
a value whose product is the fresh record's or the existing entry's. -/
lemma combineStep3_cases (sg : List SubRec) (w : Weights)
    (m : List (Nat × CombineEntry)) (rec : SubRec) :
    (∃ ex, mapGet m rec.product.id = some ex ∧
      combineStep3 sg w m rec = mapSet m rec.product.id
        { ex with
          totalScore := ex.totalScore + normalizeScore rec.score sg * w.segment,
          reasons := ex.reasons ++ [rec.reason],
          types := ex.types ++ [rec.type] }) ∨
    (mapGet m rec.product.id = none ∧
      combineStep3 sg w m rec = mapSet m rec.product.id
        { product := rec.product,
          totalScore := normalizeScore rec.score sg * w.segment,
          reasons := [rec.reason], types := [rec.type] }) := by
  unfold combineStep3
  cases h : mapGet m rec.product.id with
  | none => exact Or.inr ⟨rfl, rfl⟩
  | some ex => exact Or.inl ⟨ex, rfl, rfl⟩

/-- Fold-preservation of a per-pair property over one combiner pass. -/
lemma foldl_entry_inv (step : List (Nat × CombineEntry) → SubRec → List (Nat × CombineEntry))
    (l : List SubRec) (Q : Nat × CombineEntry → Prop)
    (hstep : ∀ m rec, rec ∈ l → (∀ kv ∈ m, Q kv) → ∀ kv ∈ step m rec, Q kv) :
    ∀ m0, (∀ kv ∈ m0, Q kv) → ∀ kv ∈ l.foldl step m0, Q kv := by
  induction l with
  | nil => intro m0 h0 kv hkv; exact h0 kv hkv
  | cons r rs ih =>
    intro m0 h0 kv hkv
    exact ih (fun m rec hr => hstep m rec (List.mem_cons_of_mem _ hr))
      (step m0 r) (hstep m0 r (List.mem_cons_self _ _) h0) kv hkv

/-- Every entry of the combiner map carries the product object of one of
the source-list records. -/
lemma combineMap_products (a c sg : List SubRec) (w : Weights)
    (kv : Nat × CombineEntry) (h : kv ∈ combineMap a c sg w) :
    ∃ r, (r ∈ a ∨ r ∈ c ∨ r ∈ sg) ∧ kv.2.product = r.product := by
  unfold combineMap at h
  refine foldl_entry_inv (combineStep3 sg w) sg
    (fun kv => ∃ r, (r ∈ a ∨ r ∈ c ∨ r ∈ sg) ∧ kv.2.product = r.product)
    ?_ _ ?_ kv h
  · intro m rec hrec hm kv' hkv'
    rcases combineStep3_cases sg w m rec with ⟨ex, hex, hstep⟩ | ⟨hex, hstep⟩ <;>
      rw [hstep] at hkv' <;> rcases mapSet_mem _ _ _ _ hkv' with rfl | h'
    · obtain ⟨r, hr, hpr⟩ := hm _ (mapGet_mem _ _ _ hex)
      exact ⟨r, hr, hpr⟩
    · exact hm _ h'
    · exact ⟨rec, Or.inr (Or.inr hrec), rfl⟩
    · exact hm _ h'
  · refine foldl_entry_inv (combineStep2 c w) c
      (fun kv => ∃ r, (r ∈ a ∨ r ∈ c ∨ r ∈ sg) ∧ kv.2.product = r.product)
      ?_ _ ?_
    · intro m rec hrec hm kv' hkv'
      rcases combineStep2_cases c w m rec with ⟨ex, hex, hstep⟩ | ⟨hex, hstep⟩ <;>
        rw [hstep] at hkv' <;> rcases mapSet_mem _ _ _ _ hkv' with rfl | h'
      · obtain ⟨r, hr, hpr⟩ := hm _ (mapGet_mem _ _ _ hex)
        exact ⟨r, hr, hpr⟩
      · exact hm _ h'
      · exact ⟨rec, Or.inr (Or.inl hrec), rfl⟩
      · exact hm _ h'
    · refine foldl_entry_inv (combineStep1 a w) a
        (fun kv => ∃ r, (r ∈ a ∨ r ∈ c ∨ r ∈ sg) ∧ kv.2.product = r.product)
        ?_ _ ?_
      · intro m rec hrec hm kv' hkv'
        unfold combineStep1 at hkv'
        rcases mapSet_mem _ _ _ _ hkv' with rfl | h'
        · exact ⟨rec, Or.inl hrec, rfl⟩
        · exact hm _ h'
      · intro kv' hkv'
        exact absurd hkv' (List.not_mem_nil kv')

/-- Every combiner output record carries the product object of one of the
source-list records. -/
lemma combineRecommendations_mem (a c sg : List SubRec) (w : Weights)
    (cr : CombinedRec) (h : cr ∈ combineRecommendations a c sg w) :
    ∃ r, (r ∈ a ∨ r ∈ c ∨ r ∈ sg) ∧ cr.product = r.product := by
  unfold combineRecommendations at h
  rw [sortSorted_mem] at h
  obtain ⟨kv, hkv, rfl⟩ := List.mem_map.mp h
  exact combineMap_products a c sg w kv hkv

/-- Claim C3 amended: on the recompute path (fast/durable cache miss and
no fresh persisted rows), no returned entry refers to an already-purchased
or zero-stock product; the two cached paths return previously persisted
entries without re-checking them (see the counterexample). -/
theorem claim_C3_amended (s : RecState) (cid lim : Nat) (now : Int)
    (hprod : (s.products.map (·.id)).Nodup)
    (hcache : ∀ l, s.recCache cid = some l → l = [])
    (hdb : getCachedRecommendations s cid now = none)
    (items : List RecItem)
    (hgen : generatePersonalizedRecommendations s cid lim now = .ok items) :
    ∀ it ∈ items,
      it.productId ∉ (completedTxnsOf s cid).map (·.product_id) ∧
      ∀ pr ∈ s.products, pr.id = it.productId → pr.stock_quantity ≠ 0 := by
  unfold generatePersonalizedRecommendations at hgen
  have hrec : gpRecompute s cid lim now = .ok items := by
    cases hcst : s.customers.find? (fun c => c.id = cid) with
    | none => rw [hcst] at hgen; exact absurd hgen (by simp)
    | some c0 =>
      rw [hcst] at hgen
      cases hc : s.recCache cid with
      | none => rw [hc] at hgen; exact hgen
      | some l =>
        rw [hc] at hgen
        have hl := hcache l hc
        subst hl
        simpa using hgen
  unfold gpRecompute at hrec
  rw [hdb] at hrec
  simp only [Except.ok.injEq] at hrec
  subst hrec
  intro it hit
  obtain ⟨cr, hcr, rfl⟩ := List.mem_map.mp hit
  obtain ⟨r, hr, hpr⟩ :=
    combineRecommendations_mem _ _ _ _ cr (List.mem_of_mem_take hcr)
  have hsound : r.product ∈ s.products ∧ 0 < r.product.stock_quantity ∧
      r.product.id ∉ (completedTxnsOf s cid).map (·.product_id) := by
    rcases hr with h | h | h
    · exact affinity_sound _ _ _ _ h
    · exact collaborative_sound _ _ _ _ _ h
    · exact segment_sound _ _ _ _ _ h
  obtain ⟨hmem, hstock, hnp⟩ := hsound
  constructor
  · show cr.product.id ∉ _
    rw [hpr]
    exact hnp
  · intro pr hprm hide
    have : pr = r.product := by
      refine List.inj_on_of_nodup_map hprod hprm hmem ?_
      rw [hide]
      show cr.product.id = _
      rw [hpr]
    rw [this]
    omega

/-- Witness for the amended claim C3: on doubleBuyState the recompute path
returns product 20 (in stock, never purchased by customer 1) and the
theorem applies to the returned list. -/
theorem claim_C3_amended_witness :
    (doubleBuyState.products.map (·.id)).Nodup ∧
    getCachedRecommendations doubleBuyState 1 0 = none ∧
    generatePersonalizedRecommendations doubleBuyState 1 5 0 =
      .ok [{ productId := 20, score := 40 }] ∧
    (∀ it ∈ [({ productId := 20, score := 40 } : RecItem)],
      it.productId ∉ (completedTxnsOf doubleBuyState 1).map (·.product_id) ∧
      ∀ pr ∈ doubleBuyState.products, pr.id = it.productId →
        pr.stock_quantity ≠ 0) := by
  have hgen : generatePersonalizedRecommendations doubleBuyState 1 5 0 =
      .ok [{ productId := 20, score := 40 }] := by
    norm_num [generatePersonalizedRecommendations, gpRecompute,
      getCachedRecommendations, completedTxnsOf,
      getProductAffinityRecommendations, affinityCandidateTxns, coBuyer,
      topByCount, attachProducts, getCollaborativeFilteringRecommendations,
      getSegmentBasedRecommendations, combineRecommendations, combineMap,
      combineStep1, normalizeScore, listMax, listMin, mapSet, mapGet,
      sortSorted, insertSorted, round2, recWeights, jsSetDedup, jsSetDedupAux,
      doubleBuyState]
  exact ⟨by decide, rfl, hgen,
    claim_C3_amended doubleBuyState 1 5 0 (by decide)
      (fun l h => by simp [doubleBuyState] at h) rfl _ hgen⟩

/-- A duplicate-free list included in another is no longer than it. -/
lemma nodup_subset_length_le (l1 l2 : List Nat) (h1 : l1.Nodup)
    (h2 : ∀ x ∈ l1, x ∈ l2) : l1.length ≤ l2.length := by
  have e1 : l1.toFinset.card = l1.length := List.toFinset_card_of_nodup h1
  have e2 : l1.toFinset ⊆ l2.toFinset := by
    intro x hx
    rw [List.mem_toFinset] at hx ⊢
    exact h2 x hx
  calc l1.length = l1.toFinset.card := e1.symm
    _ ≤ l2.toFinset.card := Finset.card_le_card e2
    _ ≤ l2.length := List.toFinset_card_le l2

/-- find? by first component on a list with duplicate-free keys returns
the member pair itself. -/
lemma find?_pair_eq (l : List (Nat × Nat)) (hl : (l.map Prod.fst).Nodup)
    (q : Nat × Nat) (hq : q ∈ l) :
    l.find? (fun x => x.1 = q.1) = some q := by
  induction l with
  | nil => exact absurd hq (List.not_mem_nil q)
  | cons y ys ih =>
    simp only [List.map_cons, List.nodup_cons] at hl
    rcases List.mem_cons.mp hq with rfl | hq'
    · exact List.find?_cons_of_pos _ (by simp)
    · have hne : ¬(y.1 = q.1) := by
        intro h
        exact hl.1 (h ▸ List.mem_map_of_mem Prod.fst hq')
      rw [List.find?_cons_of_neg _ (by simpa using hne)]
      exact ih hl.2 hq'

/-- The grouped pairs of topByCount have duplicate-free product ids. -/
lemma topByCount_keys_nodup (txns : List Txn) (lim : Nat) :
    ((topByCount txns lim).map Prod.fst).Nodup := by
  unfold topByCount
  have hpids : ((txns.map (·.product_id)).dedup.map
      (fun p => (p, txns.countP fun t => t.product_id = p))).map Prod.fst =
      (txns.map (·.product_id)).dedup := by
    simp only [List.map_map]
    exact List.map_id _
  have hnd : (((txns.map (·.product_id)).dedup.map
      (fun p => (p, txns.countP fun t => t.product_id = p))).map Prod.fst).Nodup := by
    rw [hpids]
    exact List.nodup_dedup _
  have hperm := (sortSorted_perm
    (fun a b : Nat × Nat => decide (b.2 ≤ a.2))
    ((txns.map (·.product_id)).dedup.map
      (fun p => (p, txns.countP fun t => t.product_id = p)))).map Prod.fst
  have hnds := (hperm.nodup_iff).mpr hnd
  exact List.Nodup.sublist
    (List.Sublist.map Prod.fst (List.take_sublist _ _)) hnds

/-- Counterexample to claim C4: in doubleBuyState the sole co-purchasing
customer 2 bought candidate 20 twice, so the code scores it 2 while the
claimed distinct co-purchaser count is 1. -/
theorem claim_C4_counterexample :
    getProductAffinityRecommendations doubleBuyState [10] 8 =
      [{ product := { id := 20, stock_quantity := 4 }, score := 2,
         type := "affinity",
         reason := "Frequently bought together with your previous purchases" }] ∧
    claimAffinityCoPurchasers doubleBuyState [10] 20 = 1 ∧
    ((2 : Rat) ≠ (1 : Rat)) := by
  refine ⟨by decide, by decide, by norm_num⟩

/-- Claim C4 amended: each affinity candidate's score is the count of
completed co-purchase transactions (not of distinct co-purchasers) on the
candidate by customers who bought at least one of the target's products;
already-purchased and out-of-stock products stay excluded and at most the
requested number of candidates is kept. -/
theorem claim_C4_amended (s : RecState) (purchased : List Nat) (lim : Nat)
    (hprod : (s.products.map (·.id)).Nodup) :
    (∀ e ∈ getProductAffinityRecommendations s purchased lim,
      e.score = ((affinityCandidateTxns s purchased).countP
        (fun t => t.product_id = e.product.id) : Rat) ∧
      e.product.id ∉ purchased ∧ 0 < e.product.stock_quantity) ∧
    (getProductAffinityRecommendations s purchased lim).length ≤ lim := by
  constructor
  · intro e he
    obtain ⟨hmem, hstock, hnp⟩ := affinity_sound s purchased lim e he
    refine ⟨?_, hnp, hstock⟩
    unfold getProductAffinityRecommendations at he
    split at he
    · exact absurd he (List.not_mem_nil e)
    · obtain ⟨_, _, h3, hscore⟩ := attachProducts_mem _ _ _ _ _ he
      obtain ⟨q, hq, hq1⟩ := List.mem_map.mp h3
      obtain ⟨_, hcnt⟩ := topByCount_mem _ _ _ hq
      have hfind := find?_pair_eq _ (topByCount_keys_nodup _ _) q hq
      rw [hq1] at hfind
      rw [hscore, hfind]
      simp only [Option.map_some', Option.getD_some]
      rw [hcnt, hq1]
  · unfold getProductAffinityRecommendations
    split
    · simp
    · unfold attachProducts
      rw [List.length_map]
      set F := s.products.filter
        (fun pr =>
          decide (pr.id ∈ (topByCount (affinityCandidateTxns s purchased) lim).map (·.1)) &&
          decide (0 < pr.stock_quantity)) with hF
      have hFsub : (F.map (·.id)).Nodup :=
        List.Nodup.sublist (List.Sublist.map _ (List.filter_sublist _)) hprod
      have hFin : ∀ x ∈ F.map (·.id),
          x ∈ (topByCount (affinityCandidateTxns s purchased) lim).map Prod.fst := by
        intro x hx
        obtain ⟨pr, hpr, rfl⟩ := List.mem_map.mp hx
        have h2 := (List.mem_filter.mp hpr).2
        simp only [Bool.and_eq_true, decide_eq_true_eq] at h2
        exact h2.1
      have hlen := nodup_subset_length_le _ _ hFsub hFin
      rw [List.length_map] at hlen
      calc F.length ≤ ((topByCount (affinityCandidateTxns s purchased) lim).map
            Prod.fst).length := hlen
        _ = (topByCount (affinityCandidateTxns s purchased) lim).length :=
            List.length_map _ _
        _ ≤ lim := by
            unfold topByCount
            exact List.length_take_le _ _

/-- Witness for the amended claim C4: the theorem applied to
doubleBuyState, where the sole candidate is scored by its two co-purchase
transactions. -/
theorem claim_C4_witness :
    (doubleBuyState.products.map (·.id)).Nodup ∧
    ((∀ e ∈ getProductAffinityRecommendations doubleBuyState [10] 8,
      e.score = ((affinityCandidateTxns doubleBuyState [10]).countP
        (fun t => t.product_id = e.product.id) : Rat) ∧
      e.product.id ∉ [10] ∧ 0 < e.product.stock_quantity) ∧
    (getProductAffinityRecommendations doubleBuyState [10] 8).length ≤ 8) :=
  ⟨by decide, claim_C4_amended doubleBuyState [10] 8 (by decide)⟩

/-- Reading a key right after writing it yields the written value. -/
lemma mapSet_get_self (m : List (Nat × CombineEntry)) (k : Nat)
    (v : CombineEntry) : mapGet (mapSet m k v) k = some v := by
  induction m with
  | nil => simp [mapSet, mapGet]
  | cons hd tl ih =>
    obtain ⟨k0, v0⟩ := hd
    simp only [mapSet]
    split
    · simp [mapGet]
    · unfold mapGet at ih ⊢
      rename_i hne
      rw [List.find?_cons_of_neg _ (by simpa using hne)]
      exact ih

/-- Reading a key is untouched by a write at a different key. -/
lemma mapSet_get_other (m : List (Nat × CombineEntry)) (k k' : Nat)
    (v : CombineEntry) (h : k' ≠ k) :
    mapGet (mapSet m k' v) k = mapGet m k := by
  induction m with
  | nil => simp [mapSet, mapGet, List.find?_cons, h]
  | cons hd tl ih =>
    obtain ⟨k0, v0⟩ := hd
    simp only [mapSet]
    split
    · rename_i he
      have hk0 : ¬(k0 = k) := fun hc => h (he.symm.trans hc)
      unfold mapGet
      rw [List.find?_cons_of_neg _ (by simpa using h),
        List.find?_cons_of_neg _ (by simpa using hk0)]
    · unfold mapGet at ih ⊢
      by_cases hk : k0 = k
      · rw [List.find?_cons_of_pos _ (by simpa using hk),
          List.find?_cons_of_pos _ (by simpa using hk)]
      · rw [List.find?_cons_of_neg _ (by simpa using hk),
          List.find?_cons_of_neg _ (by simpa using hk)]
        exact ih

/-- The find? lookup by key on a keyed duplicate-free list finds the member. -/
lemma find?_key_eq {β : Type} (key : β → Nat) (l : List β)
    (hl : (l.map key).Nodup) (x : β) (hx : x ∈ l) (p : Nat)
    (hk : key x = p) : l.find? (fun y => key y = p) = some x := by
  induction l with
  | nil => exact absurd hx (List.not_mem_nil x)
  | cons y ys ih =>
    simp only [List.map_cons, List.nodup_cons] at hl
    rcases List.mem_cons.mp hx with rfl | hx'
    · exact List.find?_cons_of_pos _ (by simp [hk])
    · have hne : ¬(key y = p) := by
        intro h
        exact hl.1 ((h.trans hk.symm) ▸ List.mem_map_of_mem key hx')
      rw [List.find?_cons_of_neg _ (by simpa using hne)]
      exact ih hl.2 hx'

/-- Writing one key keeps the key column duplicate-free. -/
lemma mapSet_keys_nodup (m : List (Nat × CombineEntry)) (k : Nat)
    (v : CombineEntry) (h : (m.map Prod.fst).Nodup) :
    ((mapSet m k v).map Prod.fst).Nodup := by
  induction m with
  | nil => simp [mapSet]
  | cons hd tl ih =>
    obtain ⟨k0, v0⟩ := hd
    simp only [List.map_cons, List.nodup_cons] at h
    simp only [mapSet]
    split
    · rename_i he
      simp only [List.map_cons, List.nodup_cons]
      exact ⟨by rw [← he]; exact h.1, h.2⟩
    · rename_i hne
      simp only [List.map_cons, List.nodup_cons]
      refine ⟨?_, ih h.2⟩
      intro hc
      obtain ⟨kv, hkv, hfst⟩ := List.mem_map.mp hc
      rcases mapSet_mem tl k v kv hkv with rfl | hold
      · exact hne hfst.symm
      · exact h.1 (hfst ▸ List.mem_map_of_mem Prod.fst hold)

/-- Each combiner pass keeps the map's key column duplicate-free. -/
lemma foldl_keys_nodup (step : List (Nat × CombineEntry) → SubRec → List (Nat × CombineEntry))
    (l : List SubRec)
    (hstep : ∀ m rec, ∃ k v, step m rec = mapSet m k v)
    (m0 : List (Nat × CombineEntry)) (h0 : (m0.map Prod.fst).Nodup) :
    ((l.foldl step m0).map Prod.fst).Nodup := by
  induction l generalizing m0 with
  | nil => exact h0
  | cons r rs ih =>
    rw [List.foldl_cons]
    obtain ⟨k, v, hkv⟩ := hstep m0 r
    exact ih _ (hkv ▸ mapSet_keys_nodup m0 k v h0)

/-- The combiner map has duplicate-free keys. -/
lemma combineMap_keys_nodup (a c sg : List SubRec) (w : Weights) :
    ((combineMap a c sg w).map Prod.fst).Nodup := by
  unfold combineMap
  refine foldl_keys_nodup _ _ ?_ _ (foldl_keys_nodup _ _ ?_ _ (foldl_keys_nodup _ _ ?_ _ (by simp)))
  · intro m rec
    rcases combineStep3_cases sg w m rec with ⟨ex, _, hstep⟩ | ⟨_, hstep⟩ <;>
      exact ⟨_, _, hstep⟩
  · intro m rec
    rcases combineStep2_cases c w m rec with ⟨ex, _, hstep⟩ | ⟨_, hstep⟩ <;>
      exact ⟨_, _, hstep⟩
  · intro m rec
    exact ⟨_, _, rfl⟩

/-- Every combiner-map entry's product id is its key. -/
lemma combineMap_key_product (a c sg : List SubRec) (w : Weights)
    (kv : Nat × CombineEntry) (h : kv ∈ combineMap a c sg w) :
    kv.2.product.id = kv.1 := by
  unfold combineMap at h
  refine foldl_entry_inv (combineStep3 sg w) sg
    (fun kv => kv.2.product.id = kv.1) ?_ _ ?_ kv h
  · intro m rec hrec hm kv' hkv'
    rcases combineStep3_cases sg w m rec with ⟨ex, hex, hstep⟩ | ⟨hex, hstep⟩ <;>
      rw [hstep] at hkv' <;> rcases mapSet_mem _ _ _ _ hkv' with rfl | h'
    · have hq := hm (rec.product.id, ex) (mapGet_mem _ _ _ hex)
      exact hq
    · exact hm _ h'
    · rfl
    · exact hm _ h'
  · refine foldl_entry_inv (combineStep2 c w) c
      (fun kv => kv.2.product.id = kv.1) ?_ _ ?_
    · intro m rec hrec hm kv' hkv'
      rcases combineStep2_cases c w m rec with ⟨ex, hex, hstep⟩ | ⟨hex, hstep⟩ <;>
        rw [hstep] at hkv' <;> rcases mapSet_mem _ _ _ _ hkv' with rfl | h'
      · have hq := hm (rec.product.id, ex) (mapGet_mem _ _ _ hex)
        exact hq
      · exact hm _ h'
      · rfl
      · exact hm _ h'
    · refine foldl_entry_inv (combineStep1 a w) a
        (fun kv => kv.2.product.id = kv.1) ?_ _ ?_
      · intro m rec hrec hm kv' hkv'
        unfold combineStep1 at hkv'
        rcases mapSet_mem _ _ _ _ hkv' with rfl | h'
        · rfl
        · exact hm _ h'
      · intro kv' hkv'
        exact absurd hkv' (List.not_mem_nil kv')

/-- The combined output score of a product is its map entry's total score
scaled by 100 and rounded. -/
lemma combineRecommendations_outScore (a c sg : List SubRec) (w : Weights)
    (p : Nat) (e : CombineEntry)
    (hget : mapGet (combineMap a c sg w) p = some e) :
    outScore p (combineRecommendations a c sg w) =
      round2 (e.totalScore * 100) := by
  have hmem : (p, e) ∈ combineMap a c sg w := mapGet_mem _ _ _ hget
  have hkeyeq : ∀ kv ∈ combineMap a c sg w,
      (fun kv : Nat × CombineEntry => kv.2.product.id) kv = Prod.fst kv :=
    fun kv hkv => combineMap_key_product a c sg w kv hkv
  unfold combineRecommendations outScore
  set L := (combineMap a c sg w).map fun kv =>
    ({ product := kv.2.product,
       recommendation_score := round2 (kv.2.totalScore * 100),
       recommendation_types := jsSetDedup kv.2.types,
       reasons := kv.2.reasons } : CombinedRec) with hL
  have hLkeys : (L.map fun cr => cr.product.id).Nodup := by
    rw [hL, List.map_map]
    have : ((combineMap a c sg w).map fun kv => kv.2.product.id).Nodup := by
      rw [List.map_congr_left hkeyeq]
      exact combineMap_keys_nodup a c sg w
    exact this
  have hsortkeys : ((sortSorted
      (fun x y : CombinedRec => decide (y.recommendation_score ≤ x.recommendation_score)) L).map
      fun cr => cr.product.id).Nodup := by
    have hperm := (sortSorted_perm
      (fun x y : CombinedRec => decide (y.recommendation_score ≤ x.recommendation_score)) L).map
      (fun cr => cr.product.id)
    exact hperm.nodup_iff.mpr hLkeys
  have hx : ({ product := e.product,
               recommendation_score := round2 (e.totalScore * 100),
               recommendation_types := jsSetDedup e.types,
               reasons := e.reasons } : CombinedRec) ∈ sortSorted
      (fun x y : CombinedRec => decide (y.recommendation_score ≤ x.recommendation_score)) L := by
    rw [sortSorted_mem, hL]
    exact List.mem_map_of_mem _ hmem
  have hfind := find?_key_eq (fun cr : CombinedRec => cr.product.id) _
    hsortkeys _ hx p (combineMap_key_product a c sg w (p, e) hmem)
  rw [hfind]
  rfl

/-- The affinity pass leaves keys it never writes untouched. -/
lemma foldl_step1_get_none (a : List SubRec) (w : Weights) (l : List SubRec)
    (m : List (Nat × CombineEntry)) (p : Nat)
    (h : ∀ r ∈ l, r.product.id ≠ p) :
    mapGet (l.foldl (combineStep1 a w) m) p = mapGet m p := by
  induction l generalizing m with
  | nil => rfl
  | cons r rs ih =>
    rw [List.foldl_cons, ih _ (fun x hx => h x (List.mem_cons_of_mem _ hx))]
    unfold combineStep1
    exact mapSet_get_other m p r.product.id _ (h r (List.mem_cons_self _ _))

/-- The collaborative pass leaves keys it never writes untouched. -/
lemma foldl_step2_get_none (c : List SubRec) (w : Weights) (l : List SubRec)
    (m : List (Nat × CombineEntry)) (p : Nat)
    (h : ∀ r ∈ l, r.product.id ≠ p) :
    mapGet (l.foldl (combineStep2 c w) m) p = mapGet m p := by
  induction l generalizing m with
  | nil => rfl
  | cons r rs ih =>
    rw [List.foldl_cons, ih _ (fun x hx => h x (List.mem_cons_of_mem _ hx))]
    rcases combineStep2_cases c w m r with ⟨ex, _, hstep⟩ | ⟨_, hstep⟩ <;>
      rw [hstep] <;>
      exact mapSet_get_other m p r.product.id _ (h r (List.mem_cons_self _ _))

/-- The segment pass leaves keys it never writes untouched. -/
lemma foldl_step3_get_none (sg : List SubRec) (w : Weights) (l : List SubRec)
    (m : List (Nat × CombineEntry)) (p : Nat)
    (h : ∀ r ∈ l, r.product.id ≠ p) :
    mapGet (l.foldl (combineStep3 sg w) m) p = mapGet m p := by
  induction l generalizing m with
  | nil => rfl
  | cons r rs ih =>
    rw [List.foldl_cons, ih _ (fun x hx => h x (List.mem_cons_of_mem _ hx))]
    rcases combineStep3_cases sg w m r with ⟨ex, _, hstep⟩ | ⟨_, hstep⟩ <;>
      rw [hstep] <;>
      exact mapSet_get_other m p r.product.id _ (h r (List.mem_cons_self _ _))

/-- Value written at the unique occurrence of a key by the affinity pass. -/
lemma foldl_step1_get_found (a : List SubRec) (w : Weights)
    (l1 l2 : List SubRec) (r : SubRec) (m : List (Nat × CombineEntry))
    (p : Nat) (hp : r.product.id = p)
    (h2 : ∀ x ∈ l2, x.product.id ≠ p) :
    mapGet ((l1 ++ r :: l2).foldl (combineStep1 a w) m) p =
      some { product := r.product,
             totalScore := normalizeScore r.score a * w.affinity,
             reasons := [r.reason], types := [r.type] } := by
  rw [List.foldl_append, List.foldl_cons,
    foldl_step1_get_none a w l2 _ p h2]
  unfold combineStep1
  rw [hp]
  exact mapSet_get_self _ _ _

/-- Value written at the unique occurrence of a key by the collaborative
pass: add into the prior entry or insert fresh. -/
lemma foldl_step2_get_found (c : List SubRec) (w : Weights)
    (l1 l2 : List SubRec) (r : SubRec) (m : List (Nat × CombineEntry))
    (p : Nat) (hp : r.product.id = p)
    (h1 : ∀ x ∈ l1, x.product.id ≠ p) (h2 : ∀ x ∈ l2, x.product.id ≠ p) :
    mapGet ((l1 ++ r :: l2).foldl (combineStep2 c w) m) p =
      some (match mapGet m p with
        | some ex =>
          { ex with
            totalScore := ex.totalScore + normalizeScore r.score c * w.collaborative,
            reasons := ex.reasons ++ [r.reason],
            types := ex.types ++ [r.type] }
        | none =>
          { product := r.product,
            totalScore := normalizeScore r.score c * w.collaborative,
            reasons := [r.reason], types := [r.type] }) := by
  rw [List.foldl_append, List.foldl_cons,
    foldl_step2_get_none c w l2 _ p h2]
  have hm1 : mapGet (l1.foldl (combineStep2 c w) m) p = mapGet m p :=
    foldl_step2_get_none c w l1 m p h1
  rcases combineStep2_cases c w (l1.foldl (combineStep2 c w) m) r with
    ⟨ex, hex, hstep⟩ | ⟨hex, hstep⟩
  · rw [hstep, hp, mapSet_get_self]
    rw [hp, hm1] at hex
    rw [hex]
  · rw [hstep, hp, mapSet_get_self]
    rw [hp, hm1] at hex
    rw [hex]

/-- Value written at the unique occurrence of a key by the segment pass. -/
lemma foldl_step3_get_found (sg : List SubRec) (w : Weights)
    (l1 l2 : List SubRec) (r : SubRec) (m : List (Nat × CombineEntry))
    (p : Nat) (hp : r.product.id = p)
    (h1 : ∀ x ∈ l1, x.product.id ≠ p) (h2 : ∀ x ∈ l2, x.product.id ≠ p) :
    mapGet ((l1 ++ r :: l2).foldl (combineStep3 sg w) m) p =
      some (match mapGet m p with
        | some ex =>
          { ex with
            totalScore := ex.totalScore + normalizeScore r.score sg * w.segment,
            reasons := ex.reasons ++ [r.reason],
            types := ex.types ++ [r.type] }
        | none =>
          { product := r.product,
            totalScore := normalizeScore r.score sg * w.segment,
            reasons := [r.reason], types := [r.type] }) := by
  rw [List.foldl_append, List.foldl_cons,
    foldl_step3_get_none sg w l2 _ p h2]
  have hm1 : mapGet (l1.foldl (combineStep3 sg w) m) p = mapGet m p :=
    foldl_step3_get_none sg w l1 m p h1
  rcases combineStep3_cases sg w (l1.foldl (combineStep3 sg w) m) r with
    ⟨ex, hex, hstep⟩ | ⟨hex, hstep⟩
  · rw [hstep, hp, mapSet_get_self]
    rw [hp, hm1] at hex
    rw [hex]
  · rw [hstep, hp, mapSet_get_self]
    rw [hp, hm1] at hex
    rw [hex]

/-- A fold of max dominates its seed. -/
lemma foldl_max_ge_init (l : List Rat) (acc : Rat) : acc ≤ l.foldl max acc := by
  induction l generalizing acc with
  | nil => exact le_refl _
  | cons y ys ih =>
    rw [List.foldl_cons]
    exact le_trans (le_max_left acc y) (ih (max acc y))

/-- A fold of max dominates every element. -/
lemma foldl_max_ge_mem (l : List Rat) (acc x : Rat) (hx : x ∈ l) :
    x ≤ l.foldl max acc := by
  induction l generalizing acc with
  | nil => exact absurd hx (List.not_mem_nil x)
  | cons y ys ih =>
    rw [List.foldl_cons]
    rcases List.mem_cons.mp hx with rfl | hx'
    · exact le_trans (le_max_right acc x) (foldl_max_ge_init ys _)
    · exact ih _ hx'

/-- Maximum (Math.max) of a spread score list dominates each member. -/
lemma le_listMax (l : List Rat) (x : Rat) (hx : x ∈ l) : x ≤ listMax l := by
  cases l with
  | nil => exact absurd hx (List.not_mem_nil x)
  | cons y ys =>
    rcases List.mem_cons.mp hx with rfl | hx'
    · exact foldl_max_ge_init ys x
    · exact foldl_max_ge_mem ys y x hx'

/-- A fold of min stays below its seed. -/
lemma foldl_min_le_init (l : List Rat) (acc : Rat) : l.foldl min acc ≤ acc := by
  induction l generalizing acc with
  | nil => exact le_refl _
  | cons y ys ih =>
    rw [List.foldl_cons]
    exact le_trans (ih (min acc y)) (min_le_left acc y)

/-- A fold of min stays below every element. -/
lemma foldl_min_le_mem (l : List Rat) (acc x : Rat) (hx : x ∈ l) :
    l.foldl min acc ≤ x := by
  induction l generalizing acc with
  | nil => exact absurd hx (List.not_mem_nil x)
  | cons y ys ih =>
    rw [List.foldl_cons]
    rcases List.mem_cons.mp hx with rfl | hx'
    · exact le_trans (foldl_min_le_init ys _) (min_le_right acc x)
    · exact ih _ hx'

/-- Minimum (Math.min) of a spread score list is below each member. -/
lemma listMin_le (l : List Rat) (x : Rat) (hx : x ∈ l) : listMin l ≤ x := by
  cases l with
  | nil => exact absurd hx (List.not_mem_nil x)
  | cons y ys =>
    rcases List.mem_cons.mp hx with rfl | hx'
    · exact foldl_min_le_init ys x
    · exact foldl_min_le_mem ys y x hx'

/-- The normalizeScore of a member score is nonnegative. -/
lemma normalizeScore_nonneg (x : Rat) (l : List SubRec)
    (hx : ∃ r ∈ l, r.score = x) : 0 ≤ normalizeScore x l := by
  obtain ⟨r, hr, rfl⟩ := hx
  unfold normalizeScore
  have hne : l ≠ [] := by rintro rfl; exact absurd hr (List.not_mem_nil _)
  rw [if_neg hne]
  have hmem : r.score ∈ l.map (·.score) := List.mem_map_of_mem _ hr
  by_cases he : listMax (l.map (·.score)) = listMin (l.map (·.score))
  · rw [if_pos he]
    norm_num
  · rw [if_neg he]
    have h1 : listMin (l.map (·.score)) ≤ r.score := listMin_le _ _ hmem
    have h2 : r.score ≤ listMax (l.map (·.score)) := le_listMax _ _ hmem
    have h4 : listMin (l.map (·.score)) < listMax (l.map (·.score)) :=
      lt_of_le_of_ne (le_trans h1 h2) (Ne.symm he)
    exact div_nonneg (by linarith) (by linarith)

/-- Rounding to two decimals is monotone. -/
lemma round2_mono (x y : Rat) (h : x ≤ y) : round2 x ≤ round2 y := by
  unfold round2
  have hf := Int.floor_le_floor (α := Rat)
    (show x * 100 + 1/2 ≤ y * 100 + 1/2 by linarith)
  have h100 : (0 : Rat) < 100 := by norm_num
  exact (div_le_div_iff_of_pos_right h100).mpr (by exact_mod_cast hf)

/-- A product id occurring in a duplicate-free sub-algorithm list splits
it into a unique occurrence and two id-free flanks, and pins scoreOfIn. -/
lemma inIds_decomp (l : List SubRec) (p : Nat)
    (hn : (l.map (·.product.id)).Nodup) (h : inIds p l = true) :
    ∃ l1 r l2, l = l1 ++ r :: l2 ∧ r.product.id = p ∧
      (∀ x ∈ l1, x.product.id ≠ p) ∧ (∀ x ∈ l2, x.product.id ≠ p) ∧
      scoreOfIn p l = r.score := by
  unfold inIds at h
  rw [List.any_eq_true] at h
  obtain ⟨r, hr, hpr⟩ := h
  rw [decide_eq_true_eq] at hpr
  obtain ⟨l1, l2, rfl⟩ := List.append_of_mem hr
  have hmaps : ((l1 ++ r :: l2).map (·.product.id)) =
      l1.map (·.product.id) ++ r.product.id :: l2.map (·.product.id) := by
    simp
  have hnall := hn
  rw [hmaps, List.nodup_append] at hn
  obtain ⟨hn1, hn2, hdisj⟩ := hn
  rw [List.nodup_cons] at hn2
  refine ⟨l1, r, l2, rfl, hpr, ?_, ?_, ?_⟩
  · intro x hx hc
    refine hdisj (List.mem_map_of_mem _ hx) ?_
    have e : x.product.id = r.product.id := hc.trans hpr.symm
    rw [e]
    exact List.mem_cons_self _ _
  · intro x hx hc
    refine hn2.1 ?_
    have e : r.product.id = x.product.id := hpr.trans hc.symm
    rw [e]
    exact List.mem_map_of_mem _ hx
  · unfold scoreOfIn
    rw [find?_key_eq (fun y : SubRec => y.product.id) _ hnall r hr p hpr]
    rfl

/-- An absent product id means no list record carries it. -/
lemma inIds_false (l : List SubRec) (p : Nat) (h : ¬inIds p l = true) :
    ∀ x ∈ l, x.product.id ≠ p := by
  intro x hx hc
  refine h ?_
  unfold inIds
  rw [List.any_eq_true]
  exact ⟨x, hx, by simp [hc]⟩

/-- The total score a product id accumulates over the three combiner
passes: the weighted normalized score of each source list it appears in. -/
lemma combineMap_get (a c sg : List SubRec) (w : Weights) (p : Nat)
    (hna : (a.map (·.product.id)).Nodup)
    (hnc : (c.map (·.product.id)).Nodup)
    (hns : (sg.map (·.product.id)).Nodup)
    (hp : inIds p a = true ∨ inIds p c = true ∨ inIds p sg = true) :
    ∃ e, mapGet (combineMap a c sg w) p = some e ∧
      e.totalScore =
        (if inIds p a = true then normalizeScore (scoreOfIn p a) a * w.affinity else 0) +
        (if inIds p c = true then normalizeScore (scoreOfIn p c) c * w.collaborative else 0) +
        (if inIds p sg = true then normalizeScore (scoreOfIn p sg) sg * w.segment else 0) := by
  unfold combineMap
  by_cases ha : inIds p a = true
  · obtain ⟨a1, ra, a2, hae, hrpa, _, ha2, hsca⟩ := inIds_decomp a p hna ha
    have g1 := foldl_step1_get_found a w a1 a2 ra [] p hrpa ha2
    rw [← hae, ← hsca] at g1
    by_cases hcc : inIds p c = true
    · obtain ⟨c1, rc, c2, hce, hrpc, hc1, hc2, hscc⟩ := inIds_decomp c p hnc hcc
      have g2 := foldl_step2_get_found c w c1 c2 rc
        (a.foldl (combineStep1 a w) []) p hrpc hc1 hc2
      rw [← hce, ← hscc, g1] at g2
      dsimp only at g2
      by_cases hss : inIds p sg = true
      · obtain ⟨s1, rs, s2, hse, hrps, hs1, hs2, hscs⟩ := inIds_decomp sg p hns hss
        have g3 := foldl_step3_get_found sg w s1 s2 rs
          (c.foldl (combineStep2 c w) (a.foldl (combineStep1 a w) [])) p
          hrps hs1 hs2
        rw [← hse, ← hscs, g2] at g3
        dsimp only at g3
        refine ⟨_, g3, ?_⟩
        simp [ha, hcc, hss]
      · have hnone := inIds_false sg p hss
        have g3 : mapGet (sg.foldl (combineStep3 sg w)
            (c.foldl (combineStep2 c w) (a.foldl (combineStep1 a w) []))) p =
            mapGet (c.foldl (combineStep2 c w) (a.foldl (combineStep1 a w) [])) p :=
          foldl_step3_get_none sg w sg _ p hnone
        rw [g2] at g3
        refine ⟨_, g3, ?_⟩
        simp [ha, hcc, hss]
    · have hnonec := inIds_false c p hcc
      have g2 : mapGet (c.foldl (combineStep2 c w) (a.foldl (combineStep1 a w) [])) p =
          mapGet (a.foldl (combineStep1 a w) []) p :=
        foldl_step2_get_none c w c _ p hnonec
      rw [g1] at g2
      by_cases hss : inIds p sg = true
      · obtain ⟨s1, rs, s2, hse, hrps, hs1, hs2, hscs⟩ := inIds_decomp sg p hns hss
        have g3 := foldl_step3_get_found sg w s1 s2 rs
          (c.foldl (combineStep2 c w) (a.foldl (combineStep1 a w) [])) p
          hrps hs1 hs2
        rw [← hse, ← hscs, g2] at g3
        dsimp only at g3
        refine ⟨_, g3, ?_⟩
        simp [ha, hcc, hss]
      · have hnone := inIds_false sg p hss
        have g3 : mapGet (sg.foldl (combineStep3 sg w)
            (c.foldl (combineStep2 c w) (a.foldl (combineStep1 a w) []))) p =
            mapGet (c.foldl (combineStep2 c w) (a.foldl (combineStep1 a w) [])) p :=
          foldl_step3_get_none sg w sg _ p hnone
        rw [g2] at g3
        refine ⟨_, g3, ?_⟩
        simp [ha, hcc, hss]
  · have hnonea := inIds_false a p ha
    have g1 : mapGet (a.foldl (combineStep1 a w) []) p = none := by
      rw [foldl_step1_get_none a w a [] p hnonea]
      rfl
    by_cases hcc : inIds p c = true
    · obtain ⟨c1, rc, c2, hce, hrpc, hc1, hc2, hscc⟩ := inIds_decomp c p hnc hcc
      have g2 := foldl_step2_get_found c w c1 c2 rc
        (a.foldl (combineStep1 a w) []) p hrpc hc1 hc2
      rw [← hce, ← hscc, g1] at g2
      dsimp only at g2
      by_cases hss : inIds p sg = true
      · obtain ⟨s1, rs, s2, hse, hrps, hs1, hs2, hscs⟩ := inIds_decomp sg p hns hss
        have g3 := foldl_step3_get_found sg w s1 s2 rs
          (c.foldl (combineStep2 c w) (a.foldl (combineStep1 a w) [])) p
          hrps hs1 hs2
        rw [← hse, ← hscs, g2] at g3
        dsimp only at g3
        refine ⟨_, g3, ?_⟩
        simp [ha, hcc, hss]
      · have hnone := inIds_false sg p hss
        have g3 : mapGet (sg.foldl (combineStep3 sg w)
            (c.foldl (combineStep2 c w) (a.foldl (combineStep1 a w) []))) p =
            mapGet (c.foldl (combineStep2 c w) (a.foldl (combineStep1 a w) [])) p :=
          foldl_step3_get_none sg w sg _ p hnone
        rw [g2] at g3
        refine ⟨_, g3, ?_⟩
        simp [ha, hcc, hss]
    · have hnonec := inIds_false c p hcc
      have g2 : mapGet (c.foldl (combineStep2 c w) (a.foldl (combineStep1 a w) [])) p =
          mapGet (a.foldl (combineStep1 a w) []) p :=
        foldl_step2_get_none c w c _ p hnonec
      rw [g1] at g2
      have hss : inIds p sg = true := by
        rcases hp with h | h | h
        · exact absurd h ha
        · exact absurd h hcc
        · exact h
      obtain ⟨s1, rs, s2, hse, hrps, hs1, hs2, hscs⟩ := inIds_decomp sg p hns hss
      have g3 := foldl_step3_get_found sg w s1 s2 rs
        (c.foldl (combineStep2 c w) (a.foldl (combineStep1 a w) [])) p
        hrps hs1 hs2
      rw [← hse, ← hscs, g2] at g3
      dsimp only at g3
      refine ⟨_, g3, ?_⟩
      simp [ha, hcc, hss]

/-- Dropping a product id from a list removes it from the id set. -/
lemma inIds_keepOrDrop_false (l : List SubRec) (p : Nat) :
    inIds p (keepOrDrop false p l) = false := by
  unfold keepOrDrop inIds
  simp only [Bool.false_eq_true, if_false]
  rw [List.any_eq_false]
  intro x hx
  have h2 := (List.mem_filter.mp hx).2
  simp only [decide_eq_true_eq] at h2 ⊢
  exact h2

/-- The keepOrDrop transform keeps the id column duplicate-free. -/
lemma keepOrDrop_nodup (b : Bool) (p : Nat) (l : List SubRec)
    (h : (l.map (·.product.id)).Nodup) :
    ((keepOrDrop b p l).map (·.product.id)).Nodup := by
  cases b
  · exact List.Nodup.sublist
      (List.Sublist.map _ (List.filter_sublist _)) h
  · exact h

/-- A per-source contribution term of the combiner is nonnegative. -/
lemma combineTerm_nonneg (l : List SubRec) (p : Nat) (wt : Rat)
    (hn : (l.map (·.product.id)).Nodup) (hwt : 0 ≤ wt) :
    0 ≤ (if inIds p l = true then normalizeScore (scoreOfIn p l) l * wt else 0) := by
  by_cases h : inIds p l = true
  · rw [if_pos h]
    obtain ⟨l1, r, l2, hle, _, _, _, hsc⟩ := inIds_decomp l p hn h
    refine mul_nonneg (normalizeScore_nonneg _ _ ⟨r, ?_, hsc.symm⟩) hwt
    rw [hle]
    exact List.mem_append.mpr (Or.inr (List.mem_cons_self _ _))
  · rw [if_neg h]

/-- Claim C6: with the fixed positive weights (affinity 0.4, collaborative
0.3, segment 0.3) and per-source normalized scores fixed by the unchanged
kept list, a product appearing in k of the 3 source lists gets a combined
output score at least as large as when it appears in only the one kept
list, so it ranks at least as high in the sorted output. -/
theorem claim_C6 (a c sg : List SubRec) (p : Nat) (src : Fin 3)
    (hna : (a.map (·.product.id)).Nodup)
    (hnc : (c.map (·.product.id)).Nodup)
    (hns : (sg.map (·.product.id)).Nodup)
    (hsrc : inIds p (srcList src a c sg) = true) :
    outScore p (combineRecommendations
        (keepOrDrop (decide (src = 0)) p a)
        (keepOrDrop (decide (src = 1)) p c)
        (keepOrDrop (decide (src = 2)) p sg) recWeights) ≤
      outScore p (combineRecommendations a c sg recWeights) := by
  have hw1 : (0 : Rat) ≤ recWeights.affinity := by norm_num [recWeights]
  have hw2 : (0 : Rat) ≤ recWeights.collaborative := by norm_num [recWeights]
  have hw3 : (0 : Rat) ≤ recWeights.segment := by norm_num [recWeights]
  fin_cases src
  · simp only [srcList, if_pos] at hsrc
    have hnc' := keepOrDrop_nodup false p c hnc
    have hns' := keepOrDrop_nodup false p sg hns
    obtain ⟨e, hge, hte⟩ :=
      combineMap_get a c sg recWeights p hna hnc hns (Or.inl hsrc)
    obtain ⟨e', hge', hte'⟩ :=
      combineMap_get (keepOrDrop true p a) (keepOrDrop false p c)
        (keepOrDrop false p sg) recWeights p hna hnc' hns' (Or.inl hsrc)
    have eq2 := combineRecommendations_outScore a c sg recWeights p e hge
    have eq1 := combineRecommendations_outScore (keepOrDrop true p a)
      (keepOrDrop false p c) (keepOrDrop false p sg) recWeights p e' hge'
    have hmul : e'.totalScore * 100 ≤ e.totalScore * 100 := by
      have t2 := combineTerm_nonneg c p recWeights.collaborative hnc hw2
      have t3 := combineTerm_nonneg sg p recWeights.segment hns hw3
      rw [hte, hte']
      simp only [inIds_keepOrDrop_false, Bool.false_eq_true, if_false]
      simp only [keepOrDrop, if_true]
      linarith
    exact le_trans (le_of_eq eq1)
      (le_trans (round2_mono _ _ hmul) (le_of_eq eq2.symm))
  · simp only [srcList] at hsrc
    norm_num at hsrc
    have hna' := keepOrDrop_nodup false p a hna
    have hns' := keepOrDrop_nodup false p sg hns
    obtain ⟨e, hge, hte⟩ :=
      combineMap_get a c sg recWeights p hna hnc hns (Or.inr (Or.inl hsrc))
    obtain ⟨e', hge', hte'⟩ :=
      combineMap_get (keepOrDrop false p a) (keepOrDrop true p c)
        (keepOrDrop false p sg) recWeights p hna' hnc hns' (Or.inr (Or.inl hsrc))
    have eq2 := combineRecommendations_outScore a c sg recWeights p e hge
    have eq1 := combineRecommendations_outScore (keepOrDrop false p a)
      (keepOrDrop true p c) (keepOrDrop false p sg) recWeights p e' hge'
    have hmul : e'.totalScore * 100 ≤ e.totalScore * 100 := by
      have t1 := combineTerm_nonneg a p recWeights.affinity hna hw1
      have t3 := combineTerm_nonneg sg p recWeights.segment hns hw3
      rw [hte, hte']
      simp only [inIds_keepOrDrop_false, Bool.false_eq_true, if_false]
      simp only [keepOrDrop, if_true]
      linarith
    exact le_trans (le_of_eq eq1)
      (le_trans (round2_mono _ _ hmul) (le_of_eq eq2.symm))
  · simp only [srcList] at hsrc
    have hna' := keepOrDrop_nodup false p a hna
    have hnc' := keepOrDrop_nodup false p c hnc
    obtain ⟨e, hge, hte⟩ :=
      combineMap_get a c sg recWeights p hna hnc hns (Or.inr (Or.inr hsrc))
    obtain ⟨e', hge', hte'⟩ :=
      combineMap_get (keepOrDrop false p a) (keepOrDrop false p c)
        (keepOrDrop true p sg) recWeights p hna' hnc' hns (Or.inr (Or.inr hsrc))
    have eq2 := combineRecommendations_outScore a c sg recWeights p e hge
    have eq1 := combineRecommendations_outScore (keepOrDrop false p a)
      (keepOrDrop false p c) (keepOrDrop true p sg) recWeights p e' hge'
    have hmul : e'.totalScore * 100 ≤ e.totalScore * 100 := by
      have t1 := combineTerm_nonneg a p recWeights.affinity hna hw1
      have t2 := combineTerm_nonneg c p recWeights.collaborative hnc hw2
      rw [hte, hte']
      simp only [inIds_keepOrDrop_false, Bool.false_eq_true, if_false]
      simp only [keepOrDrop, if_true]
      linarith
    exact le_trans (le_of_eq eq1)
      (le_trans (round2_mono _ _ hmul) (le_of_eq eq2.symm))

/-- Witness for claim C6: product 10 appears in the affinity and
collaborative lists; kept only in affinity it scores no higher. -/
theorem claim_C6_witness :
    ((c6affList.map (·.product.id)).Nodup ∧
     (c6colList.map (·.product.id)).Nodup ∧
     ((([] : List SubRec)).map (·.product.id)).Nodup ∧
     inIds 10 (srcList 0 c6affList c6colList []) = true) ∧
    outScore 10 (combineRecommendations
        (keepOrDrop (decide ((0 : Fin 3) = 0)) 10 c6affList)
        (keepOrDrop (decide ((0 : Fin 3) = 1)) 10 c6colList)
        (keepOrDrop (decide ((0 : Fin 3) = 2)) 10 []) recWeights) ≤
      outScore 10 (combineRecommendations c6affList c6colList [] recWeights) :=
  ⟨⟨by decide, by decide, by decide, by decide⟩,
   claim_C6 c6affList c6colList [] 10 0 (by decide) (by decide) (by decide)
     (by decide)⟩

end Techmart
